import Mathlib

/-!
# LeanMySQL: the C++ FFI layer `cpp/ffi.cpp`

A shallow embedding of the session record `mysql`, the bounded append buffer
(`append_to_buffer`), the type classifier (`type_to_str`), the result encoder inside
`lean_mysql_query` and the other entry points of the foreign interface, followed by
theorems that settle the statements of the specification against this code.

Conventions of the embedding.

* A byte (`char`) is a natural number, its unsigned value.
* A `const char*` is the list of bytes stored at the pointer; the zero byte that closes the
  array is implicit.  `strlen` and every copy stop at the first zero byte of the list, so a
  list without a zero byte is a C string with exactly those bytes.
* `int` values are integers.  The buffer capacity is computed from a `uint32_t` with
  wrap-around (`buffer_units_to_size`); the lengths added in `append_to_buffer` are lengths of
  strings held in memory, far below `2 ^ 31`, so that sum is taken exactly.
  `append_to_buffer_int32` is the same function with every `int` operation taken modulo
  `2 ^ 32`; the two agree on every state with `0 ≤ buffer_pos ≤ buffer_size` whose block has
  `buffer_size` bytes (`append_to_buffer_int32_eq`), which are the states `lean_mysql_query`
  appends in.
* A pointer to an object of the client library is kept as what the code tests of it, together
  with a mark that tells whether the object behind it has been released (`mysql_close`,
  `free`): releasing an object a second time is undefined, and a function that does so has no
  result (`none`).
* The MySQL client library and `malloc` are outside the repository: what they answer is an
  argument of the function that calls them.
-/

namespace LeanMySQL

/-! ## C strings -/

/-- Bytes of a C string literal: the UTF-8 encoding of the text (the source file is UTF-8),
without the closing zero byte. -/
def c_lit (s : String) : List Nat :=
  s.data.flatMap fun c => (String.utf8EncodeChar c).map UInt8.toNat

/-- The bytes of the C string at a pointer: everything before the first zero byte. -/
def c_str (s : List Nat) : List Nat :=
  s.takeWhile (fun b => b ≠ 0)

/-- The function `strlen`: the number of bytes in front of the first zero byte. -/
def strlen (s : List Nat) : Nat :=
  (c_str s).length

/-- The call `memcpy(dst + pos, src, src.length)` on a block of memory held as a list, for a
write that lies inside the block (`pos + src.length ≤ dst.length`): the bytes at offsets
`pos ..` are replaced by `src`, the other bytes and the length of the block stay.  The check
in `append_to_buffer` keeps every write inside a block of `buffer_size` bytes. -/
def memcpy (dst : List Nat) (pos : Nat) (src : List Nat) : List Nat :=
  dst.take pos ++ src ++ dst.drop (pos + src.length)

/-! ## The result set handed over by the MySQL client -/

/-- The record `MYSQL_FIELD`: the two members the encoder reads. -/
structure MYSQL_FIELD where
  name : List Nat
  type : Int
deriving DecidableEq

/-- The type `MYSQL_ROW` (`char**`): one entry per column, `none` for a NULL pointer (SQL NULL). -/
abbrev MYSQL_ROW := List (Option (List Nat))

/-- The result set `MYSQL_RES` as stored by `mysql_store_result`: the column metadata in order and the rows in
order.  Every row of a result set has one entry per column. -/
structure MYSQL_RES where
  fields : List MYSQL_FIELD
  rows : List MYSQL_ROW
  row_width : ∀ row ∈ rows, row.length = fields.length
deriving DecidableEq

/-- The client function `mysql_num_fields`. -/
def mysql_num_fields (res : MYSQL_RES) : Int :=
  res.fields.length

/-! ## `enum enum_field_types` of `mysql/field_types.h` (the tags `type_to_str` names) -/

def MYSQL_TYPE_DECIMAL : Int := 0
def MYSQL_TYPE_TINY : Int := 1
def MYSQL_TYPE_SHORT : Int := 2
def MYSQL_TYPE_LONG : Int := 3
def MYSQL_TYPE_FLOAT : Int := 4
def MYSQL_TYPE_DOUBLE : Int := 5
def MYSQL_TYPE_LONGLONG : Int := 8
def MYSQL_TYPE_INT24 : Int := 9
def MYSQL_TYPE_NEWDECIMAL : Int := 246
def MYSQL_TYPE_VAR_STRING : Int := 253

/-! ## The session record -/

/-- The record `struct mysql`.  The two pointers to client objects are kept as what the code tests of
them: `connection` is true when the pointer is not NULL, `result` holds the stored result set
when there is one.  `logged` and `has_result` are the `char` flags, read as truth values.

The last two entries are not members of the C record; they describe the heap behind its two
pointers.  `connection_released` is true when the object `connection` points to has been
released by `mysql_close` and the pointer still holds its address; `result_released` is true
when the object `result` points to has been released by `free` and the pointer still holds
its address.  A record as the struct initialisers describe it has both false. -/
structure mysql where
  connection : Bool
  logged : Bool
  status : Int
  buffer_size : Int
  buffer_pos : Int
  buffer : List Nat
  has_result : Bool
  result : Option MYSQL_RES
  connection_released : Bool := false
  result_released : Bool := false
deriving DecidableEq

/-- Lean runtime objects, as far as this file builds them. -/
inductive lean_object where
  | boxed (n : Nat)
  | str (s : List Nat)
  | user_error (v : lean_object)
  | io_ok (v : lean_object)
  | session (m : mysql)
deriving DecidableEq

/-- The runtime function `lean_box`. -/
def lean_box (n : Nat) : lean_object := lean_object.boxed n

/-- The runtime function `lean_mk_string`: a Lean string with the bytes of the C string at the pointer. -/
def lean_mk_string (s : List Nat) : lean_object := lean_object.str (c_str s)

/-- The runtime function `lean_mk_io_user_error`. -/
def lean_mk_io_user_error (v : lean_object) : lean_object := lean_object.user_error v

/-- The runtime function `lean_io_result_mk_ok`. -/
def lean_io_result_mk_ok (v : lean_object) : lean_object := lean_object.io_ok v

/-- The function `mysql_box`. -/
def mysql_box (m : mysql) : lean_object := lean_object.session m

/-- The constant `ERR_INCR_BFFR`. -/
def ERR_INCR_BFFR : List Nat := c_lit "Not enough memory. Try increasing the buffer size."

/-- The function `make_error`. -/
def make_error (err_msg : List Nat) : lean_object :=
  lean_mk_io_user_error (lean_mk_io_user_error (lean_mk_string err_msg))

/-! ## Internal functions -/

/-- The function `close_connection`.  Of the record itself only `logged` is written.
`mysql_close(m->connection)` releases the connection object (it does nothing for a NULL
pointer) and `free(m->result)` releases the stored result set when the pointer is not NULL;
neither pointer is reset, so both keep the address of a released object.  When one of the two
objects has been released before (a second close with no login or query in between), the call
releases it a second time: that is undefined, the process aborts, and there is no state after
the call (`none`). -/
def close_connection (m : mysql) : Option mysql :=
  if (m.connection && m.connection_released) || (m.result.isSome && m.result_released) then
    none
  else
    some { m with
      logged := false
      connection_released := m.connection
      result_released := m.result.isSome }

/-- The function `query_all`: `status` is what `mysql_query` returned, `result` what `mysql_store_result`
returned.  The pointer `result` is overwritten, so it points to an object that has not been
released (or is NULL). -/
def query_all (m : mysql) (status : Int) (result : Option MYSQL_RES) : mysql :=
  { m with status := status, result := result, result_released := false }

/-- The function `lean_mysql_manage_db`; `error` is the text `mysql_error` gives. -/
def lean_mysql_manage_db (m : mysql) (status : Int) (error : List Nat)
    (result : Option MYSQL_RES) : mysql × lean_object :=
  if !m.logged then (m, make_error (c_lit "Not logged in."))
  else
    let m := query_all m status result
    if m.status ≠ 0 then (m, make_error error)
    else (m, lean_io_result_mk_ok (lean_box 0))

/-- The function `append_to_buffer`: the returned flag is the `char` result (`true` for 1).
The copy writes the `size` bytes of the string and its closing zero byte at
`buffer + buffer_pos`.  The cursor is an offset into the block; `lean_mysql_query` sets it to
0 before the first append and appends only move it up, so it is never negative here (a
negative value would be read as offset 0).  The `int` arithmetic is taken exactly: with
`0 ≤ buffer_pos ≤ buffer_size` and a string shorter than `2 ^ 31 - 1` bytes no operation of
the function leaves the range of `int`, and with a block of `buffer_size` bytes the copy stays
inside the block (`append_to_buffer_int32_eq`). -/
def append_to_buffer (m : mysql) (s : List Nat) : mysql × Bool :=
  let size : Int := strlen s
  if m.buffer_size - m.buffer_pos < size + 1 then (m, false)
  else
    ({ m with
        buffer := memcpy m.buffer m.buffer_pos.toNat (c_str s ++ [0])
        buffer_pos := m.buffer_pos + size }, true)

/-- The value an `int` holds after an operation whose exact result is `x`: `x` modulo `2 ^ 32`,
read as a signed 32-bit integer (what the compiled code computes when a signed operation
leaves the range). -/
def wrap_int32 (x : Int) : Int :=
  (x + 2 ^ 31) % 2 ^ 32 - 2 ^ 31

/-- The function `append_to_buffer` with its `int` operations as the machine performs them:
the conversion `int size = strlen(s)`, the difference `m->buffer_size - m->buffer_pos`, the
sums `size + 1` and `m->buffer_pos + size` are each taken modulo `2 ^ 32`.  The copy moves
`size + 1` bytes, the count read as a `size_t`, to `buffer + buffer_pos`; a copy that does
not lie inside the block (a negative offset, a count that has come out negative and is
read as a number above `2 ^ 63`, an end behind the end of the block) is undefined, and the
call has no result (`none`). -/
def append_to_buffer_int32 (m : mysql) (s : List Nat) : Option (mysql × Bool) :=
  let size : Int := wrap_int32 (strlen s)
  if wrap_int32 (m.buffer_size - m.buffer_pos) < wrap_int32 (size + 1) then some (m, false)
  else if 0 ≤ m.buffer_pos ∧ 0 ≤ wrap_int32 (size + 1) ∧
      m.buffer_pos + wrap_int32 (size + 1) ≤ m.buffer.length then
    some ({ m with
        buffer := memcpy m.buffer m.buffer_pos.toNat
          ((c_str s ++ [0]).take (wrap_int32 (size + 1)).toNat)
        buffer_pos := wrap_int32 (m.buffer_pos + size) }, true)
  else none

/-- The function `type_to_str`; the `switch` is written as a chain of tests in the order of
its `case` labels, the `default` last. -/
def type_to_str (t : Int) : List Nat :=
  if t = MYSQL_TYPE_TINY then c_lit "nat"
  else if t = MYSQL_TYPE_SHORT then c_lit "nat"
  else if t = MYSQL_TYPE_LONG then c_lit "nat"
  else if t = MYSQL_TYPE_LONGLONG then c_lit "nat"
  else if t = MYSQL_TYPE_INT24 then c_lit "nat"
  else if t = MYSQL_TYPE_DECIMAL then c_lit "float"
  else if t = MYSQL_TYPE_FLOAT then c_lit "float"
  else if t = MYSQL_TYPE_DOUBLE then c_lit "float"
  else c_lit "string"

/-! ## The API -/

/-- The statement `int size = (b - 1) * 1024;` for a `uint32_t b`: the product modulo `2 ^ 32`, read as a
signed 32-bit integer. -/
def buffer_units_to_size (b : Nat) : Int :=
  let u : Nat := (((b % 2 ^ 32 + (2 ^ 32 - 1)) % 2 ^ 32) * 1024) % 2 ^ 32
  if u < 2 ^ 31 then (u : Int) else (u : Int) - 2 ^ 32

/-- The function `lean_mysql_mk`; `raw` is the record as `malloc(sizeof(mysql))` returned it
(`malloc` runs no initialiser, so its members hold whatever the memory held), `fresh` is what
`malloc(size)` returned for the buffer. -/
def lean_mysql_mk (b : Nat) (raw : mysql) (fresh : Option (List Nat)) : lean_object :=
  let size := buffer_units_to_size b
  match fresh with
  | none => make_error (c_lit "Not enough memory to allocate buffer.")
  | some buffer =>
    lean_io_result_mk_ok (mysql_box { raw with buffer := buffer, buffer_size := size })

/-- The function `lean_mysql_set_buffer_size`; `fresh` is what `malloc(size)` returned: `none` for NULL,
otherwise the (arbitrary) bytes of the new block. -/
def lean_mysql_set_buffer_size (m : mysql) (b : Nat) (fresh : Option (List Nat)) :
    mysql × lean_object :=
  let size := buffer_units_to_size b
  match fresh with
  | none => (m, make_error (c_lit "Not enough memory to allocate buffer."))
  | some buffer =>
    ({ m with buffer := buffer, buffer_size := size }, lean_io_result_mk_ok (lean_box 0))

/-- The function `lean_mysql_login`; `init_ok` says whether `mysql_init` returned a handle, `connect_ok`
whether `mysql_real_connect` did, `error` is the text `mysql_error` gives.  The pointer
`connection` is overwritten with what `mysql_init` returned: a new object or NULL. -/
def lean_mysql_login (m : mysql) (init_ok connect_ok : Bool) (error : List Nat) :
    mysql × lean_object :=
  if m.logged then (m, make_error (c_lit "Already logged in. Try using 'close' first."))
  else
    let m := { m with connection := init_ok, connection_released := false }
    if !m.connection then
      (m, make_error (c_lit "Failed to instantiate a connection with MySQL."))
    else if !connect_ok then (m, make_error error)
    else ({ m with logged := true }, lean_io_result_mk_ok (lean_box 0))

/-- The function `lean_mysql_run`. -/
def lean_mysql_run (m : mysql) (status : Int) (error : List Nat)
    (result : Option MYSQL_RES) : mysql × lean_object :=
  lean_mysql_manage_db m status error result

/-- Sequencing of the `if (!append_to_buffer(...)) return make_error(...)` steps: go on with
`k` after a success, stop with the state as it is after a failure. -/
def and_then (r : mysql × Bool) (k : mysql → mysql × Bool) : mysql × Bool :=
  if r.2 then k r.1 else (r.1, false)

/-- The header loop of `lean_mysql_query` from iteration `i` on; the list holds the fields
`mysql_fetch_field` has not yet returned. -/
def header_loop (num_fields : Int) : Int → List MYSQL_FIELD → mysql → mysql × Bool
  | _, [], m => (m, true)
  | i, field :: rest, m =>
    and_then (append_to_buffer m field.name) fun m =>
    and_then (append_to_buffer m (c_lit " ")) fun m =>
    and_then (append_to_buffer m (type_to_str field.type)) fun m =>
    and_then (if i < num_fields - 1 then append_to_buffer m (c_lit "~") else (m, true)) fun m =>
    header_loop num_fields (i + 1) rest m

/-- The expression `row[i] ? row[i] : "NULL"`. -/
def value_text (v : Option (List Nat)) : List Nat :=
  match v with
  | some s => s
  | none => c_lit "NULL"

/-- The inner loop over one row from index `i` on; the list holds `row[i]`, `row[i+1]`, ... -/
def row_loop (num_fields : Int) : Int → MYSQL_ROW → mysql → mysql × Bool
  | _, [], m => (m, true)
  | i, v :: rest, m =>
    and_then (append_to_buffer m (value_text v)) fun m =>
    and_then (if i < num_fields - 1 then append_to_buffer m (c_lit "~") else (m, true)) fun m =>
    row_loop num_fields (i + 1) rest m

/-- The `while (row = mysql_fetch_row(...))` loop; the list holds the rows not yet fetched. -/
def rows_loop (num_fields : Int) : List MYSQL_ROW → mysql → mysql × Bool
  | [], m => (m, true)
  | row :: rest, m =>
    and_then (row_loop num_fields 0 row m) fun m =>
    and_then (append_to_buffer m (c_lit "¨")) fun m =>
    rows_loop num_fields rest m

/-- The two assignments in front of the header loop: `m->buffer_pos = 0; m->has_result = 0;`. -/
def reset_buffer (m : mysql) : mysql :=
  { m with buffer_pos := 0, has_result := false }

/-- The encoding part of `lean_mysql_query` (from the header loop to the final append of
`"\0"`): the flag is false when one of the appends failed. -/
def encode_result (res : MYSQL_RES) (m : mysql) : mysql × Bool :=
  let num_fields := mysql_num_fields res
  and_then (header_loop num_fields 0 res.fields m) fun m =>
  and_then (append_to_buffer m (c_lit "¨")) fun m =>
  and_then (rows_loop num_fields res.rows m) fun m =>
  append_to_buffer m (c_lit "\x00")

/-- The function `lean_mysql_query`; `status` is what `mysql_query` returned, `error` the text `mysql_error`
gives, `res` the result set `mysql_store_result` returned. -/
def lean_mysql_query (m : mysql) (status : Int) (error : List Nat) (res : MYSQL_RES) :
    mysql × lean_object :=
  if !m.logged then (m, make_error (c_lit "Not logged in."))
  else
    let m := query_all m status (some res)
    if m.status ≠ 0 then (m, make_error error)
    else
      let m := reset_buffer m
      let r := encode_result res m
      if !r.2 then (r.1, make_error ERR_INCR_BFFR)
      else ({ r.1 with has_result := true }, lean_io_result_mk_ok (lean_box 0))

/-- The function `lean_mysql_get_query_result`: the record is only read.  With `has_result` set the Lean
string built from the buffer is returned as it is. -/
def lean_mysql_get_query_result (m : mysql) : mysql × lean_object :=
  if !m.has_result then (m, lean_io_result_mk_ok (lean_mk_string (c_lit "")))
  else (m, lean_mk_string m.buffer)

/-- The function `lean_mysql_close`: it has a result when `close_connection` returns. -/
def lean_mysql_close (m : mysql) : Option (mysql × lean_object) :=
  match close_connection m with
  | none => none
  | some m => some (m, lean_io_result_mk_ok (lean_box 0))

/-! ## Definitions used in the statements and proofs -/

/-- The appends of a list of strings one after the other, stopping at the first failure. -/
def append_all : List (List Nat) → mysql → mysql × Bool
  | [], m => (m, true)
  | s :: rest, m => and_then (append_to_buffer m s) (append_all rest)

/-- The cursor stands right behind `pre`, and the buffer starts with `pre`. -/
def written (m : mysql) (pre : List Nat) : Prop :=
  m.buffer_pos = (pre.length : Int) ∧ pre <+: m.buffer

/-- As `written`, and the byte at the cursor is a zero byte. -/
def terminated (m : mysql) (pre : List Nat) : Prop :=
  m.buffer_pos = (pre.length : Int) ∧ (pre ++ [0]) <+: m.buffer

/-- The separator step of both loops: `"~"` is appended unless `i` is the last index. -/
def sep_pieces (num_fields i : Int) : List (List Nat) :=
  if i < num_fields - 1 then [c_lit "~"] else []

/-- The strings the header loop appends, in order. -/
def header_pieces (num_fields : Int) : Int → List MYSQL_FIELD → List (List Nat)
  | _, [] => []
  | i, field :: rest =>
    field.name :: c_lit " " :: type_to_str field.type ::
      (sep_pieces num_fields i ++ header_pieces num_fields (i + 1) rest)

/-- The strings the inner loop appends for one row, in order. -/
def row_pieces (num_fields : Int) : Int → MYSQL_ROW → List (List Nat)
  | _, [] => []
  | i, v :: rest =>
    value_text v :: (sep_pieces num_fields i ++ row_pieces num_fields (i + 1) rest)

/-- The strings the row loop appends, in order. -/
def rows_pieces (num_fields : Int) : List MYSQL_ROW → List (List Nat)
  | [] => []
  | row :: rest =>
    row_pieces num_fields 0 row ++ c_lit "¨" :: rows_pieces num_fields rest

/-- The strings `encode_result` appends, in order. -/
def encode_pieces (res : MYSQL_RES) : List (List Nat) :=
  header_pieces (mysql_num_fields res) 0 res.fields ++ c_lit "¨" ::
    (rows_pieces (mysql_num_fields res) res.rows ++ [c_lit "\x00"])

/-- The fields of the record that no append writes. -/
def same_session (m m' : mysql) : Prop :=
  m'.connection = m.connection ∧ m'.logged = m.logged ∧ m'.status = m.status ∧
    m'.buffer_size = m.buffer_size ∧ m'.has_result = m.has_result ∧ m'.result = m.result

/-- The header line in the words of the specification: the strings `<name> <type>` of the
columns in order, joined by the field separator and closed by the record terminator. -/
def spec_header (fields : List MYSQL_FIELD) : List Nat :=
  List.intercalate (c_lit "~")
    (fields.map fun f => f.name ++ c_lit " " ++ type_to_str f.type) ++ c_lit "¨"

/-- One row in the words of the specification: its values in order, NULL written as the
text `NULL`, joined by the field separator and closed by the record terminator. -/
def spec_row (row : MYSQL_ROW) : List Nat :=
  List.intercalate (c_lit "~") (row.map fun v => v.getD (c_lit "NULL")) ++ c_lit "¨"

/-- The blob in the words of the specification: the header line, then the rows in order. -/
def spec_blob (res : MYSQL_RES) : List Nat :=
  spec_header res.fields ++ (res.rows.map spec_row).flatten

/-- The bytes one entry of a row puts into the blob: the bytes of the C string at the pointer,
and for a NULL pointer the four bytes `N`, `U`, `L`, `L`. -/
def written_value (v : Option (List Nat)) : List Nat :=
  match v with
  | some s => c_str s
  | none => [78, 85, 76, 76]

/-- The header line as bytes: the strings `<name> <type>` of the columns, every name as far
as its first zero byte, joined by the field separator and closed by the record terminator. -/
def written_header (fields : List MYSQL_FIELD) : List Nat :=
  List.intercalate (c_lit "~")
    (fields.map fun f => c_str f.name ++ c_lit " " ++ type_to_str f.type) ++ c_lit "¨"

/-- One row as bytes: what its entries put into the blob (`written_value`), joined by the
field separator and closed by the record terminator. -/
def written_row (row : MYSQL_ROW) : List Nat :=
  List.intercalate (c_lit "~") (row.map written_value) ++ c_lit "¨"

/-- The blob as bytes, for every result set: the header line, then the rows in order. -/
def written_blob (res : MYSQL_RES) : List Nat :=
  written_header res.fields ++ (res.rows.map written_row).flatten

/-- No column name and no value of the result set holds a zero byte. -/
def zero_free (res : MYSQL_RES) : Prop :=
  (∀ f ∈ res.fields, 0 ∉ f.name) ∧ ∀ row ∈ res.rows, ∀ v ∈ row, ∀ s ∈ v, 0 ∉ s

instance (res : MYSQL_RES) : Decidable (zero_free res) := by
  unfold zero_free
  infer_instance

/-- The number of bytes a list of C strings takes when written one after the other. -/
def total_len (ps : List (List Nat)) : Nat :=
  ((ps.map c_str).flatten).length

/-- The length of the complete encoding of a result set: header and all rows, without the
final zero byte. -/
def encoded_length (res : MYSQL_RES) : Nat :=
  total_len (encode_pieces res)

/-- The part of the encoding in front of the final append of `"\0"`: the header loop, the
header's record terminator and the row loop. -/
def before_final_append (res : MYSQL_RES) (m : mysql) : mysql × Bool :=
  let num_fields := mysql_num_fields res
  and_then (header_loop num_fields 0 res.fields m) fun m =>
  and_then (append_to_buffer m (c_lit "¨")) fun m =>
  rows_loop num_fields res.rows m

/-- The session record without its pointer to the stored result set. -/
def without_result (m : mysql) : mysql :=
  { m with result := none }

/-- One call of the API together with what the client library and `malloc` answer to it. -/
inductive api_call where
  | login (init_ok connect_ok : Bool) (error : List Nat)
  | execute (status : Int) (error : List Nat) (result : Option MYSQL_RES)
  | query (status : Int) (error : List Nat) (res : MYSQL_RES)
  | fetch
  | resize (b : Nat) (fresh : Option (List Nat))
  | close

/-- The session record after one call.  A close that aborts the process leaves no later
state; the run then goes on from the record as it was, which only adds states to the runs. -/
def api_step (m : mysql) : api_call → mysql
  | api_call.login init_ok connect_ok error => (lean_mysql_login m init_ok connect_ok error).1
  | api_call.execute status error result => (lean_mysql_run m status error result).1
  | api_call.query status error res => (lean_mysql_query m status error res).1
  | api_call.fetch => (lean_mysql_get_query_result m).1
  | api_call.resize b fresh => (lean_mysql_set_buffer_size m b fresh).1
  | api_call.close =>
    match lean_mysql_close m with
    | some r => r.1
    | none => m

/-- The session record after a sequence of calls. -/
def api_run (m : mysql) (calls : List api_call) : mysql :=
  calls.foldl api_step m

/-- Whether a call is a resize. -/
def is_resize : api_call → Bool
  | api_call.resize _ _ => true
  | _ => false

/-- Splitting a byte string at every occurrence of a separator, scanning from the left:
`skip` counts the bytes of a separator just found that are still to be passed over; outside
a separator the current byte joins the piece in front of the pieces of the rest. -/
def split_go (sep : List Nat) : Nat → List Nat → List (List Nat)
  | _, [] => [[]]
  | skip + 1, _ :: rest => split_go sep skip rest
  | 0, b :: rest =>
    if sep.isPrefixOf (b :: rest) then [] :: split_go sep (sep.length - 1) rest
    else
      match split_go sep 0 rest with
      | p :: ps => (b :: p) :: ps
      | [] => [[b]]

/-- The pieces of `s` between the occurrences of `sep`. -/
def split_on (sep s : List Nat) : List (List Nat) :=
  split_go sep 0 s

/-- The reader of the row body described for the blob: split at every record terminator,
drop the first piece (the header) and the empty piece behind the last terminator, and split
every remaining piece at every field separator. -/
def decode_rows (blob : List Nat) : List (List (List Nat)) :=
  (((split_on (c_lit "¨") blob).drop 1).dropLast).map (split_on (c_lit "~"))

/-- No column name and no value contains the field separator or the record terminator as a
substring. -/
def delimiter_free (res : MYSQL_RES) : Prop :=
  (∀ f ∈ res.fields, ¬ (c_lit "~" <:+: f.name) ∧ ¬ (c_lit "¨" <:+: f.name)) ∧
    ∀ row ∈ res.rows, ∀ v ∈ row, ∀ s ∈ v, ¬ (c_lit "~" <:+: s) ∧ ¬ (c_lit "¨" <:+: s)

/-- Whether the two bytes of the record terminator occur next to each other in a string. -/
def has_term : List Nat → Bool
  | a :: b :: rest => (a == 194 && b == 168) || has_term (b :: rest)
  | _ => false

instance (res : MYSQL_RES) : Decidable (delimiter_free res) := by
  unfold delimiter_free
  infer_instance

/-! ## Concrete sessions and result sets -/

/-- A logged-in session with a 64-byte buffer whose bytes are whatever `malloc` left there. -/
def session_64 : mysql :=
  { connection := true, logged := true, status := 0, buffer_size := 64, buffer_pos := 0,
    buffer := List.replicate 64 170, has_result := false, result := none }

/-- The first example of the specification: columns `id` (an integer tag) and `name` (a text
tag), rows `1, Ann` and `NULL, Bo`. -/
def ann_bo : MYSQL_RES :=
  { fields := [⟨c_lit "id", MYSQL_TYPE_LONG⟩, ⟨c_lit "name", MYSQL_TYPE_VAR_STRING⟩]
    rows := [[some (c_lit "1"), some (c_lit "Ann")], [none, some (c_lit "Bo")]]
    row_width := by decide }

/-- The second example of the specification: one column `x` with a floating tag, no rows. -/
def x_float : MYSQL_RES :=
  { fields := [⟨c_lit "x", MYSQL_TYPE_DOUBLE⟩], rows := [], row_width := by decide }

/-- A result set without columns and with two rows. -/
def no_columns : MYSQL_RES :=
  { fields := [], rows := [[], []], row_width := by decide }

/-- The session `session_64` after a successful query that returned `ann_bo`. -/
def after_ann_bo : mysql :=
  (lean_mysql_query session_64 0 [] ann_bo).1

/-- The session `after_ann_bo` after a close: logged out, both client objects released. -/
def closed_ann_bo : mysql :=
  { after_ann_bo with logged := false, connection_released := true, result_released := true }

/-- A buffer state with the largest capacity an `int` holds and the cursor at `-1`. -/
def session_int_max : mysql :=
  { session_64 with buffer_size := 2147483647, buffer_pos := -1 }

/-- A block `malloc(1024)` may return: four bytes left over from an earlier use, then zero
bytes. -/
def fresh_block : List Nat :=
  c_lit "junk" ++ List.replicate 1020 0

/-- The result set `ann_bo` with the text `NULL` in place of the SQL NULL. -/
def ann_bo_text : MYSQL_RES :=
  { fields := ann_bo.fields
    rows := [[some (c_lit "1"), some (c_lit "Ann")], [some (c_lit "NULL"), some (c_lit "Bo")]]
    row_width := by decide }

/-- The values the declaration of `struct mysql` gives its members (NULL pointers, zero
flags, zero sizes). -/
def mysql_default : mysql :=
  { connection := false, logged := false, status := 0, buffer_size := 0, buffer_pos := 0,
    buffer := [], has_result := false, result := none }

/-- A session as `lean_mysql_mk 3` builds it in a record that holds the declared initial
values: a buffer of 2048 bytes, cursor 0. -/
def fresh_session : mysql :=
  { mysql_default with buffer := List.replicate 2048 0, buffer_size := buffer_units_to_size 3 }

/-- A result set with one text column whose name has 1100 bytes, and no rows. -/
def wide_res : MYSQL_RES :=
  { fields := [⟨List.replicate 1100 97, MYSQL_TYPE_VAR_STRING⟩], rows := [],
    row_width := by decide }

/-- A result set with one column and one value that holds a zero byte: `a`, zero, `b`. -/
def nul_value : MYSQL_RES :=
  { fields := [⟨c_lit "c", MYSQL_TYPE_VAR_STRING⟩], rows := [[some [97, 0, 98]]],
    row_width := by decide }

/-! ## Lemmas -/

theorem c_str_zero_free (s : List Nat) : 0 ∉ c_str s := by
  unfold c_str
  intro h
  have := List.mem_takeWhile_imp h
  simp at this

theorem c_str_of_zero_free {s : List Nat} (h : 0 ∉ s) : c_str s = s := by
  unfold c_str
  rw [List.takeWhile_eq_self_iff]
  intro b hb
  simp
  rintro rfl
  exact h hb

theorem strlen_of_zero_free {s : List Nat} (h : 0 ∉ s) : strlen s = s.length := by
  simp [strlen, c_str_of_zero_free h]

theorem append_to_buffer_ok_iff (m : mysql) (s : List Nat) :
    (append_to_buffer m s).2 = true ↔ (strlen s : Int) + 1 ≤ m.buffer_size - m.buffer_pos := by
  unfold append_to_buffer
  by_cases h : m.buffer_size - m.buffer_pos < (strlen s : Int) + 1
  · simp [h]
  · simp [h]; omega

theorem append_to_buffer_fail (m : mysql) (s : List Nat)
    (h : (append_to_buffer m s).2 = false) : (append_to_buffer m s).1 = m := by
  unfold append_to_buffer at h ⊢
  by_cases hc : m.buffer_size - m.buffer_pos < (strlen s : Int) + 1
  · simp [hc]
  · simp [hc] at h

theorem append_to_buffer_fst (m : mysql) (s : List Nat)
    (h : (append_to_buffer m s).2 = true) :
    (append_to_buffer m s).1 =
      { m with
        buffer := memcpy m.buffer m.buffer_pos.toNat (c_str s ++ [0])
        buffer_pos := m.buffer_pos + (strlen s : Int) } := by
  unfold append_to_buffer at h ⊢
  by_cases hc : m.buffer_size - m.buffer_pos < (strlen s : Int) + 1
  · simp [hc] at h
  · simp [hc]

theorem memcpy_prefix (pre rest src : List Nat) :
    memcpy (pre ++ rest) pre.length src = pre ++ src ++ rest.drop src.length := by
  simp [memcpy, List.drop_append]

theorem append_to_buffer_written {m : mysql} {pre : List Nat} (s : List Nat)
    (hw : written m pre) (h : (append_to_buffer m s).2 = true) :
    terminated (append_to_buffer m s).1 (pre ++ c_str s) := by
  obtain ⟨hpos, rest, hbuf⟩ := hw
  rw [append_to_buffer_fst m s h]
  refine ⟨?_, ?_⟩
  · simp [hpos, strlen]
  · simp only [hpos, Int.toNat_ofNat, ← hbuf, memcpy_prefix]
    exact ⟨rest.drop (c_str s ++ [0]).length, by simp⟩

theorem terminated_written {m : mysql} {pre : List Nat} (h : terminated m pre) :
    written m pre :=
  ⟨h.1, (List.prefix_append pre [0]).trans h.2⟩

theorem and_then_true (m : mysql) (k : mysql → mysql × Bool) : and_then (m, true) k = k m := rfl

theorem and_then_snd {r : mysql × Bool} {k : mysql → mysql × Bool}
    (h : (and_then r k).2 = true) : r.2 = true ∧ (k r.1).2 = true := by
  unfold and_then at h
  cases hr : r.2 <;> simp [hr] at h ⊢
  exact h

theorem and_then_of_ok {r : mysql × Bool} (k : mysql → mysql × Bool) (h : r.2 = true) :
    and_then r k = k r.1 := by
  simp [and_then, h]

theorem and_then_of_fail {r : mysql × Bool} (k : mysql → mysql × Bool) (h : r.2 = false) :
    and_then r k = (r.1, false) := by
  simp [and_then, h]

theorem and_then_pure (r : mysql × Bool) : (and_then r fun m => (m, true)) = r := by
  unfold and_then
  cases h : r.2
  · simp; exact Prod.ext rfl h.symm
  · simp; exact Prod.ext rfl h.symm

theorem and_then_assoc (r : mysql × Bool) (k₁ k₂ : mysql → mysql × Bool) :
    and_then (and_then r k₁) k₂ = and_then r fun m => and_then (k₁ m) k₂ := by
  unfold and_then
  cases r.2 <;> simp

theorem append_all_append (a b : List (List Nat)) (m : mysql) :
    append_all (a ++ b) m = and_then (append_all a m) (append_all b) := by
  induction a generalizing m with
  | nil => simp [append_all, and_then]
  | cons s a ih =>
    simp only [List.cons_append, append_all, and_then_assoc]
    congr 1
    funext m1
    exact ih m1

theorem append_all_append_fun (a b : List (List Nat)) :
    append_all (a ++ b) = fun m => and_then (append_all a m) (append_all b) :=
  funext (append_all_append a b)

theorem append_all_singleton (s : List Nat) (m : mysql) :
    append_all [s] m = append_to_buffer m s := by
  simp only [append_all, and_then]
  cases h : (append_to_buffer m s).2
  · simp; exact Prod.ext rfl h.symm
  · simp; exact Prod.ext rfl h.symm

theorem append_all_singleton_fun (s : List Nat) :
    append_all [s] = fun m => append_to_buffer m s :=
  funext (append_all_singleton s)

theorem sep_step (num_fields i : Int) (m : mysql) :
    (if i < num_fields - 1 then append_to_buffer m (c_lit "~") else (m, true)) =
      append_all (sep_pieces num_fields i) m := by
  unfold sep_pieces
  split
  · rw [append_all_singleton]
  · rfl

theorem header_loop_eq (num_fields i : Int) (fields : List MYSQL_FIELD) (m : mysql) :
    header_loop num_fields i fields m = append_all (header_pieces num_fields i fields) m := by
  induction fields generalizing i m with
  | nil => rfl
  | cons f rest ih =>
    simp only [header_loop, header_pieces, append_all, sep_step, append_all_append_fun, ih]

theorem row_loop_eq (num_fields i : Int) (row : MYSQL_ROW) (m : mysql) :
    row_loop num_fields i row m = append_all (row_pieces num_fields i row) m := by
  induction row generalizing i m with
  | nil => rfl
  | cons v rest ih =>
    simp only [row_loop, row_pieces, append_all, sep_step, append_all_append_fun, ih]

theorem rows_loop_eq (num_fields : Int) (rows : List MYSQL_ROW) (m : mysql) :
    rows_loop num_fields rows m = append_all (rows_pieces num_fields rows) m := by
  induction rows generalizing m with
  | nil => rfl
  | cons row rest ih =>
    simp only [rows_loop, rows_pieces, row_loop_eq, append_all_append, and_then_assoc,
      append_all, ih]

theorem encode_result_eq (res : MYSQL_RES) (m : mysql) :
    encode_result res m = append_all (encode_pieces res) m := by
  simp only [encode_result, encode_pieces, header_loop_eq, rows_loop_eq, append_all_append,
    append_all_append_fun, and_then_assoc, append_all, and_then_pure]

theorem type_to_str_cases (t : Int) :
    type_to_str t = c_lit "nat" ∨ type_to_str t = c_lit "float" ∨
      type_to_str t = c_lit "string" := by
  unfold type_to_str
  repeat' split
  all_goals simp

theorem c_str_type_to_str (t : Int) : c_str (type_to_str t) = type_to_str t := by
  rcases type_to_str_cases t with h | h | h <;> rw [h] <;> decide

theorem c_str_value_text (v : Option (List Nat)) (h : ∀ s ∈ v, 0 ∉ s) :
    c_str (value_text v) = v.getD (c_lit "NULL") := by
  cases v with
  | none => decide
  | some s => exact c_str_of_zero_free (h s rfl)

theorem flat_sep_pieces_last (n i : Int) (h : i + 1 = n) :
    ((sep_pieces n i).map c_str).flatten = [] := by
  have : ¬ i < n - 1 := by omega
  simp [sep_pieces, this]

theorem flat_sep_pieces_inner (n i : Int) (h : i + 1 < n) :
    ((sep_pieces n i).map c_str).flatten = c_lit "~" := by
  have : i < n - 1 := by omega
  simp only [sep_pieces, this, if_true]
  decide

theorem flat_header_pieces (n : Int) (fields : List MYSQL_FIELD) (i : Int)
    (hn : i + fields.length = n) (hz : ∀ f ∈ fields, 0 ∉ f.name) :
    ((header_pieces n i fields).map c_str).flatten =
      List.intercalate (c_lit "~")
        (fields.map fun f => f.name ++ c_lit " " ++ type_to_str f.type) := by
  induction fields generalizing i with
  | nil => simp [header_pieces, List.intercalate]
  | cons f rest ih =>
    have hf : c_str f.name = f.name := c_str_of_zero_free (hz f (List.mem_cons_self _ _))
    have hsp : c_str (c_lit " ") = c_lit " " := by decide
    cases rest with
    | nil =>
      simp only [header_pieces, List.map_cons, List.map_append, List.flatten_cons,
        List.flatten_append, List.map_nil, List.flatten_nil, List.append_nil, hf, hsp,
        c_str_type_to_str, flat_sep_pieces_last n i (by simpa using hn), List.intercalate,
        List.intersperse_single]
      simp
    | cons g rest =>
      have hrec := ih (i + 1) (by simp at hn ⊢; omega)
        (fun f hf => hz f (List.mem_cons_of_mem _ hf))
      simp only [List.map_cons] at hrec
      rw [header_pieces]
      simp only [List.map_cons, List.map_append, List.flatten_cons, List.flatten_append, hf,
        hsp, c_str_type_to_str, flat_sep_pieces_inner n i (by simp at hn; omega), hrec]
      simp [List.intercalate]

theorem flat_row_pieces (n : Int) (row : MYSQL_ROW) (i : Int)
    (hn : i + row.length = n) (hz : ∀ v ∈ row, ∀ s ∈ v, 0 ∉ s) :
    ((row_pieces n i row).map c_str).flatten =
      List.intercalate (c_lit "~") (row.map fun v => v.getD (c_lit "NULL")) := by
  induction row generalizing i with
  | nil => simp [row_pieces, List.intercalate]
  | cons v rest ih =>
    have hv := c_str_value_text v (hz v (List.mem_cons_self _ _))
    cases rest with
    | nil =>
      simp only [row_pieces, List.map_cons, List.map_append, List.flatten_cons,
        List.flatten_append, List.map_nil, List.flatten_nil, List.append_nil, hv,
        flat_sep_pieces_last n i (by simpa using hn), List.intercalate,
        List.intersperse_single]
    | cons w rest =>
      have hrec := ih (i + 1) (by simp at hn ⊢; omega)
        (fun v hv => hz v (List.mem_cons_of_mem _ hv))
      simp only [List.map_cons] at hrec
      rw [row_pieces]
      simp only [List.map_cons, List.map_append, List.flatten_cons, List.flatten_append, hv,
        flat_sep_pieces_inner n i (by simp at hn; omega), hrec]
      simp [List.intercalate]

theorem flat_rows_pieces (n : Int) (rows : List MYSQL_ROW)
    (hw : ∀ row ∈ rows, (row.length : Int) = n)
    (hz : ∀ row ∈ rows, ∀ v ∈ row, ∀ s ∈ v, 0 ∉ s) :
    ((rows_pieces n rows).map c_str).flatten = (rows.map spec_row).flatten := by
  induction rows with
  | nil => simp [rows_pieces]
  | cons row rest ih =>
    have hterm : c_str (c_lit "¨") = c_lit "¨" := by decide
    simp only [rows_pieces, List.map_append, List.map_cons, List.flatten_append,
      List.flatten_cons, hterm,
      flat_row_pieces n row 0 (by simpa using hw row (List.mem_cons_self _ _))
        (hz row (List.mem_cons_self _ _)),
      ih (fun r hr => hw r (List.mem_cons_of_mem _ hr))
        (fun r hr => hz r (List.mem_cons_of_mem _ hr)), spec_row, List.append_assoc]

theorem flat_encode_pieces (res : MYSQL_RES) (hz : zero_free res) :
    ((encode_pieces res).map c_str).flatten = spec_blob res := by
  have hterm : c_str (c_lit "¨") = c_lit "¨" := by decide
  have hend : c_str (c_lit "\x00") = [] := by decide
  simp only [encode_pieces, List.map_append, List.map_cons, List.flatten_append,
    List.flatten_cons, List.map_nil, List.flatten_nil, hterm, hend, List.append_nil,
    flat_header_pieces (mysql_num_fields res) res.fields 0 (by simp [mysql_num_fields]) hz.1,
    flat_rows_pieces (mysql_num_fields res) res.rows
      (fun row hr => by simp [mysql_num_fields, res.row_width row hr]) hz.2,
    spec_blob, spec_header, List.append_assoc]

theorem append_to_buffer_same (m : mysql) (s : List Nat) :
    same_session m (append_to_buffer m s).1 := by
  unfold same_session
  cases h : (append_to_buffer m s).2
  · rw [append_to_buffer_fail m s h]
    simp
  · rw [append_to_buffer_fst m s h]
    simp

theorem same_session_trans {a b c : mysql} (h₁ : same_session a b) (h₂ : same_session b c) :
    same_session a c := by
  unfold same_session at *
  obtain ⟨a1, a2, a3, a4, a5, a6⟩ := h₁
  obtain ⟨b1, b2, b3, b4, b5, b6⟩ := h₂
  exact ⟨b1.trans a1, b2.trans a2, b3.trans a3, b4.trans a4, b5.trans a5, b6.trans a6⟩

theorem append_all_same (ps : List (List Nat)) (m : mysql) :
    same_session m (append_all ps m).1 := by
  induction ps generalizing m with
  | nil => simp [append_all, same_session]
  | cons s rest ih =>
    simp only [append_all, and_then]
    split
    · exact same_session_trans (append_to_buffer_same m s) (ih _)
    · exact append_to_buffer_same m s

theorem append_all_terminated (ps : List (List Nat)) {m : mysql} {pre : List Nat}
    (hw : terminated m pre) (h : (append_all ps m).2 = true) :
    terminated (append_all ps m).1 (pre ++ (ps.map c_str).flatten) := by
  induction ps generalizing m pre with
  | nil => simpa [append_all] using hw
  | cons s rest ih =>
    rw [append_all] at h ⊢
    obtain ⟨h1, h2⟩ := and_then_snd h
    rw [and_then_of_ok _ h1]
    have := ih (append_to_buffer_written s (terminated_written hw) h1) h2
    simpa [List.append_assoc] using this

theorem append_all_written (s : List Nat) (ps : List (List Nat)) {m : mysql} {pre : List Nat}
    (hw : written m pre) (h : (append_all (s :: ps) m).2 = true) :
    terminated (append_all (s :: ps) m).1 (pre ++ ((s :: ps).map c_str).flatten) := by
  rw [append_all] at h ⊢
  obtain ⟨h1, h2⟩ := and_then_snd h
  rw [and_then_of_ok _ h1]
  have := append_all_terminated ps (append_to_buffer_written s hw h1) h2
  simpa [List.append_assoc] using this

theorem encode_pieces_cons (res : MYSQL_RES) :
    ∃ s ps, encode_pieces res = s :: ps := by
  unfold encode_pieces
  cases header_pieces (mysql_num_fields res) 0 res.fields with
  | nil => exact ⟨_, _, rfl⟩
  | cons a l => exact ⟨_, _, rfl⟩

/-- A successful encode that starts at cursor 0 leaves the pieces, one after the other, at the
start of the buffer, a zero byte behind them and the cursor on that zero byte. -/
theorem encode_result_terminated (res : MYSQL_RES) (m : mysql) (hpos : m.buffer_pos = 0)
    (h : (encode_result res m).2 = true) :
    terminated (encode_result res m).1 ((encode_pieces res).map c_str).flatten := by
  rw [encode_result_eq] at h ⊢
  obtain ⟨s, ps, hps⟩ := encode_pieces_cons res
  rw [hps] at h ⊢
  have hw : written m [] := ⟨by simp [hpos], List.nil_prefix⟩
  simpa using append_all_written s ps hw h

theorem terminated_take {m : mysql} {pre : List Nat} (h : terminated m pre) :
    m.buffer.take m.buffer_pos.toNat = pre := by
  obtain ⟨hpos, rest, hbuf⟩ := h
  rw [hpos, ← hbuf]
  simp [List.take_append_eq_append_take]

theorem terminated_zero {m : mysql} {pre : List Nat} (h : terminated m pre) :
    m.buffer[m.buffer_pos.toNat]? = some 0 := by
  obtain ⟨hpos, rest, hbuf⟩ := h
  rw [hpos, ← hbuf, List.append_assoc, Int.toNat_ofNat,
    List.getElem?_append_right (Nat.le_refl _)]
  simp

theorem terminated_c_str {m : mysql} {pre : List Nat} (h : terminated m pre)
    (hz : 0 ∉ pre) : c_str m.buffer = pre := by
  obtain ⟨_, rest, hbuf⟩ := h
  rw [← hbuf]
  unfold c_str
  rw [List.append_assoc, List.takeWhile_append_of_pos]
  · simp
  · intro a ha
    simp only [ne_eq, decide_eq_true_eq]
    rintro rfl
    exact hz ha

theorem flatten_c_str_zero_free (ps : List (List Nat)) : 0 ∉ (ps.map c_str).flatten := by
  simp only [List.mem_flatten, List.mem_map, not_exists, not_and]
  rintro l ⟨s, _, rfl⟩
  exact c_str_zero_free s

theorem query_unfold (m : mysql) (status : Int) (error : List Nat) (res : MYSQL_RES) :
    lean_mysql_query m status error res =
      if m.logged = false then (m, make_error (c_lit "Not logged in."))
      else if status ≠ 0 then (query_all m status (some res), make_error error)
      else if (encode_result res (reset_buffer (query_all m status (some res)))).2 = false then
        ((encode_result res (reset_buffer (query_all m status (some res)))).1,
          make_error ERR_INCR_BFFR)
      else
        ({ (encode_result res (reset_buffer (query_all m status (some res)))).1 with
            has_result := true }, lean_io_result_mk_ok (lean_box 0)) := by
  unfold lean_mysql_query
  have hst : (query_all m status (some res)).status = status := rfl
  simp only [hst]
  cases hl : m.logged
  · simp
  · by_cases hs : status = 0
    · cases he : (encode_result res (reset_buffer (query_all m status (some res)))).2 <;>
        simp [hs, he]
    · simp [hs]

theorem make_error_ne_ok (e : List Nat) (v : lean_object) :
    make_error e ≠ lean_io_result_mk_ok v := by
  simp [make_error, lean_mk_io_user_error, lean_io_result_mk_ok]

/-- What a successful `lean_mysql_query` leaves: the session was logged in, the statement went
through, every append succeeded, and the state is the encoder's state with `has_result` set. -/
theorem query_ok {m : mysql} {status : Int} {error : List Nat} {res : MYSQL_RES}
    (hok : (lean_mysql_query m status error res).2 = lean_io_result_mk_ok (lean_box 0)) :
    m.logged = true ∧ status = 0 ∧
      (encode_result res (reset_buffer (query_all m status (some res)))).2 = true ∧
      (lean_mysql_query m status error res).1 =
        { (encode_result res (reset_buffer (query_all m status (some res)))).1 with
          has_result := true } := by
  rw [query_unfold] at hok ⊢
  cases hl : m.logged
  · simp [hl, make_error_ne_ok] at hok
  · by_cases hs : status = 0
    · subst hs
      cases he : (encode_result res (reset_buffer (query_all m 0 (some res)))).2
      · simp [hl, he, make_error_ne_ok] at hok
      · simp
    · simp [hl, hs, make_error_ne_ok] at hok

/-- The state a successful query leaves holds the encoded pieces at the start of its buffer,
closed by a zero byte under the cursor. -/
theorem query_ok_terminated {m : mysql} {status : Int} {error : List Nat} {res : MYSQL_RES}
    (hok : (lean_mysql_query m status error res).2 = lean_io_result_mk_ok (lean_box 0)) :
    terminated (lean_mysql_query m status error res).1
      ((encode_pieces res).map c_str).flatten := by
  obtain ⟨_, _, he, hm⟩ := query_ok hok
  have := encode_result_terminated res (reset_buffer (query_all m status (some res))) rfl he
  rw [hm]
  exact ⟨this.1, this.2⟩

/-- C1: when `lean_mysql_query` succeeds on a result set of zero-free names and values, the
buffer bytes at offsets 0..cursor are exactly the blob the specification describes (the
`<name> <type>` strings joined by `~` and closed by `¨`, then each row's values, NULL written
as `NULL`, joined by `~` and closed by `¨`), the byte at offset cursor is a zero byte, the
cursor is the length of that blob; without columns the header is just `¨`, and without rows
the blob is just the header. -/
theorem query_blob_layout (m : mysql) (status : Int) (error : List Nat) (res : MYSQL_RES)
    (hz : zero_free res)
    (hok : (lean_mysql_query m status error res).2 = lean_io_result_mk_ok (lean_box 0)) :
    (lean_mysql_query m status error res).1.buffer.take
        (lean_mysql_query m status error res).1.buffer_pos.toNat = spec_blob res ∧
      (lean_mysql_query m status error res).1.buffer[
        (lean_mysql_query m status error res).1.buffer_pos.toNat]? = some 0 ∧
      (lean_mysql_query m status error res).1.buffer_pos = ((spec_blob res).length : Int) ∧
      (res.fields = [] → spec_header res.fields = c_lit "¨") ∧
      (res.rows = [] → spec_blob res = spec_header res.fields) := by
  have ht := query_ok_terminated hok
  rw [flat_encode_pieces res hz] at ht
  refine ⟨terminated_take ht, terminated_zero ht, ht.1, ?_, ?_⟩
  · intro h
    rw [h]
    decide
  · intro h
    simp [spec_blob, h]

/-- C1 at the examples of the specification: `id nat~name string¨1~Ann¨NULL~Bo¨` for the two
columns and two rows, `x float¨` for one floating column without rows, and `¨¨¨` for two rows
without columns. -/
theorem query_blob_layout_witness :
    ((lean_mysql_query session_64 0 [] ann_bo).1.buffer.take
        (lean_mysql_query session_64 0 [] ann_bo).1.buffer_pos.toNat
          = c_lit "id nat~name string¨1~Ann¨NULL~Bo¨" ∧
      (lean_mysql_query session_64 0 [] ann_bo).1.buffer[
        (lean_mysql_query session_64 0 [] ann_bo).1.buffer_pos.toNat]? = some 0) ∧
    (lean_mysql_query session_64 0 [] x_float).1.buffer.take
        (lean_mysql_query session_64 0 [] x_float).1.buffer_pos.toNat = c_lit "x float¨" ∧
    (lean_mysql_query session_64 0 [] no_columns).1.buffer.take
        (lean_mysql_query session_64 0 [] no_columns).1.buffer_pos.toNat = c_lit "¨¨¨" :=
  ⟨⟨(query_blob_layout session_64 0 [] ann_bo (by decide) (by decide)).1.trans (by decide),
      (query_blob_layout session_64 0 [] ann_bo (by decide) (by decide)).2.1⟩,
    (query_blob_layout session_64 0 [] x_float (by decide) (by decide)).1.trans (by decide),
    (query_blob_layout session_64 0 [] no_columns (by decide) (by decide)).1.trans (by decide)⟩

theorem encode_result_same (res : MYSQL_RES) (m : mysql) :
    same_session m (encode_result res m).1 := by
  rw [encode_result_eq]
  exact append_all_same _ m

/-- What `lean_mysql_query` returns when the statement went through and an append failed. -/
theorem query_overflow {m : mysql} (error : List Nat) {res : MYSQL_RES}
    (hlog : m.logged = true)
    (hfail : (encode_result res (reset_buffer (query_all m 0 (some res)))).2 = false) :
    lean_mysql_query m 0 error res =
      ((encode_result res (reset_buffer (query_all m 0 (some res)))).1,
        make_error ERR_INCR_BFFR) := by
  rw [query_unfold]
  simp [hlog, hfail]

theorem fetch_without_result {m : mysql} (h : m.has_result = false) :
    lean_mysql_get_query_result m = (m, lean_io_result_mk_ok (lean_mk_string (c_lit ""))) := by
  simp [lean_mysql_get_query_result, h]

/-- A result set whose single column name is too long for a buffer of capacity `K`. -/
theorem overflow_exists (K : Int) :
    ∃ res : MYSQL_RES, ∀ m : mysql, m.buffer_size = K → m.buffer_pos = 0 →
      (encode_result res m).2 = false := by
  refine ⟨⟨[⟨List.replicate K.toNat 1, 0⟩], [], by simp⟩, ?_⟩
  intro m hK hpos
  rw [encode_result_eq]
  simp only [encode_pieces, header_pieces, List.cons_append, append_all]
  have hz : (0 : Nat) ∉ List.replicate K.toNat 1 := by
    intro h
    have := List.eq_of_mem_replicate h
    omega
  have hfail : (append_to_buffer m (List.replicate K.toNat 1)).2 = false := by
    cases h : (append_to_buffer m (List.replicate K.toNat 1)).2
    · rfl
    · rw [append_to_buffer_ok_iff, strlen_of_zero_free hz, hK, hpos] at h
      simp at h
      omega
  rw [and_then_of_fail _ hfail]

/-- C2: overflow is all-or-nothing.  When an append of the encoding fails (the flag of
`encode_result` is false), `lean_mysql_query` reports the error built from `ERR_INCR_BFFR`
("Not enough memory. Try increasing the buffer size."), `has_result` is false afterwards and
the next `lean_mysql_get_query_result` returns the empty string; the error is reported only
when an append failed; and for every capacity `K` there is a result set on which every
logged-in session of that capacity overflows. -/
theorem query_overflow_all_or_nothing :
    (∀ (m : mysql) (error : List Nat) (res : MYSQL_RES), m.logged = true →
      (encode_result res (reset_buffer (query_all m 0 (some res)))).2 = false →
        (lean_mysql_query m 0 error res).2 = make_error ERR_INCR_BFFR ∧
        (lean_mysql_query m 0 error res).1.has_result = false ∧
        (lean_mysql_get_query_result (lean_mysql_query m 0 error res).1).2 =
          lean_io_result_mk_ok (lean_mk_string (c_lit ""))) ∧
    (∀ (m : mysql) (error : List Nat) (res : MYSQL_RES), m.logged = true →
      (encode_result res (reset_buffer (query_all m 0 (some res)))).2 = true →
        (lean_mysql_query m 0 error res).2 = lean_io_result_mk_ok (lean_box 0)) ∧
    (∀ K : Int, ∃ res : MYSQL_RES, ∀ (m : mysql) (error : List Nat),
      m.logged = true → m.buffer_size = K →
        (lean_mysql_query m 0 error res).2 = make_error ERR_INCR_BFFR ∧
        (lean_mysql_query m 0 error res).1.has_result = false ∧
        (lean_mysql_get_query_result (lean_mysql_query m 0 error res).1).2 =
          lean_io_result_mk_ok (lean_mk_string (c_lit ""))) := by
  have key : ∀ (m : mysql) (error : List Nat) (res : MYSQL_RES), m.logged = true →
      (encode_result res (reset_buffer (query_all m 0 (some res)))).2 = false →
        (lean_mysql_query m 0 error res).2 = make_error ERR_INCR_BFFR ∧
        (lean_mysql_query m 0 error res).1.has_result = false ∧
        (lean_mysql_get_query_result (lean_mysql_query m 0 error res).1).2 =
          lean_io_result_mk_ok (lean_mk_string (c_lit "")) := by
    intro m error res hlog hfail
    have hres : (encode_result res (reset_buffer (query_all m 0 (some res)))).1.has_result
        = false :=
      (encode_result_same res (reset_buffer (query_all m 0 (some res)))).2.2.2.2.1
    rw [query_overflow error hlog hfail]
    exact ⟨rfl, hres, by rw [fetch_without_result hres]⟩
  refine ⟨key, ?_, ?_⟩
  · intro m error res hlog hok
    rw [query_unfold]
    simp [hlog, hok]
  · intro K
    obtain ⟨res, hres⟩ := overflow_exists K
    exact ⟨res, fun m error hlog hK => key m error res hlog (hres _ hK rfl)⟩

/-- C2 at a concrete overflow: the result set `ann_bo` (36 bytes and the closing zero byte)
does not fit a 16-byte buffer; the error is reported, `has_result` is false and the fetch
gives the empty string although the buffer holds the first bytes of the blob. -/
theorem query_overflow_all_or_nothing_witness :
    (lean_mysql_query { session_64 with buffer_size := 16, buffer := List.replicate 16 170 }
        0 [] ann_bo).2 = make_error ERR_INCR_BFFR ∧
      (lean_mysql_query { session_64 with buffer_size := 16, buffer := List.replicate 16 170 }
        0 [] ann_bo).1.has_result = false ∧
      (lean_mysql_get_query_result
        (lean_mysql_query { session_64 with buffer_size := 16, buffer := List.replicate 16 170 }
          0 [] ann_bo).1).2 = lean_io_result_mk_ok (lean_mk_string (c_lit "")) :=
  query_overflow_all_or_nothing.1
    { session_64 with buffer_size := 16, buffer := List.replicate 16 170 } [] ann_bo
    (by decide) (by decide)

theorem wrap_int32_of_range {x : Int} (h₁ : -(2 ^ 31) ≤ x) (h₂ : x < 2 ^ 31) :
    wrap_int32 x = x := by
  unfold wrap_int32
  omega

/-- With `0 ≤ buffer_pos ≤ buffer_size`, a capacity in the range of `int`, a block of at
least `buffer_size` bytes and a string whose length plus one is in the range of `int`, no
operation of `append_to_buffer` leaves the range and the copy lies inside the block: the
exact arithmetic is the arithmetic of the machine. -/
theorem append_to_buffer_int32_eq (m : mysql) (s : List Nat)
    (hlo : 0 ≤ m.buffer_pos) (hhi : m.buffer_pos ≤ m.buffer_size)
    (hcap : m.buffer_size < 2 ^ 31) (hlen : (strlen s : Int) < 2 ^ 31 - 1)
    (hbuf : m.buffer_size ≤ m.buffer.length) :
    append_to_buffer_int32 m s = some (append_to_buffer m s) := by
  have h0 : (0 : Int) ≤ strlen s := Int.ofNat_nonneg _
  have hsize : wrap_int32 (strlen s) = strlen s := wrap_int32_of_range (by omega) (by omega)
  have hsum : wrap_int32 ((strlen s : Int) + 1) = (strlen s : Int) + 1 :=
    wrap_int32_of_range (by omega) (by omega)
  have hdiff : wrap_int32 (m.buffer_size - m.buffer_pos) = m.buffer_size - m.buffer_pos :=
    wrap_int32_of_range (by omega) (by omega)
  unfold append_to_buffer_int32 append_to_buffer
  simp only [hsize, hsum, hdiff]
  by_cases hc : m.buffer_size - m.buffer_pos < (strlen s : Int) + 1
  · simp only [hc, if_true]
  · have hpos : wrap_int32 (m.buffer_pos + (strlen s : Int)) = m.buffer_pos + (strlen s : Int) :=
      wrap_int32_of_range (by omega) (by omega)
    have hin : 0 ≤ m.buffer_pos ∧ 0 ≤ (strlen s : Int) + 1 ∧
        m.buffer_pos + ((strlen s : Int) + 1) ≤ m.buffer.length := ⟨hlo, by omega, by omega⟩
    have htake : (c_str s ++ [0]).take ((strlen s : Int) + 1).toNat = c_str s ++ [0] := by
      apply List.take_of_length_le
      simp only [List.length_append, List.length_cons, List.length_nil, strlen]
      omega
    simp only [hc, if_false, hin, and_self, if_true, hpos, htake]

/-- A failed test returns the record as it is, whatever the arithmetic gives. -/
theorem append_to_buffer_int32_fail (m : mysql) (s : List Nat) (m' : mysql)
    (h : append_to_buffer_int32 m s = some (m', false)) : m' = m := by
  unfold append_to_buffer_int32 at h
  simp only at h
  split at h
  · exact ((Prod.mk.inj (Option.some.inj h)).1).symm
  · split at h
    · exact absurd (Prod.mk.inj (Option.some.inj h)).2 (by decide)
    · exact Option.noConfusion h

/-- C3, counterexample: with capacity `2 ^ 31 - 1` and cursor `-1` the difference
`buffer_size - buffer_pos` leaves the range of `int` and comes out as `-2 ^ 31`, so the append
of the zero-free string `ab` is refused (returns 0, the record as it was) although
`capacity - cursor`, which is `2 ^ 31`, is not below `len(s) + 1 = 3`. -/
theorem append_to_buffer_int32_wraps :
    0 ∉ c_lit "ab" ∧
      ¬ (session_int_max.buffer_size - session_int_max.buffer_pos <
        ((c_lit "ab").length : Int) + 1) ∧
      wrap_int32 (session_int_max.buffer_size - session_int_max.buffer_pos) = -2147483648 ∧
      append_to_buffer_int32 session_int_max (c_lit "ab") = some (session_int_max, false) := by
  decide

/-- C3 as amended: for a buffer state with `0 ≤ cursor ≤ capacity` and a zero-free string `s`,
the capacity and `len(s) + 1` being values of an `int` (below `2 ^ 31`), `append_to_buffer`,
with its arithmetic as the machine performs it, fails (returns 0) exactly when
`capacity - cursor < len(s) + 1`, and a failed call returns the record as it was: cursor,
buffer contents and every other field unchanged.  When the block has the `capacity` bytes it
was allocated with, the call is the function `append_to_buffer` with exact arithmetic. -/
theorem append_to_buffer_fails_iff (m : mysql) (s : List Nat)
    (hlo : 0 ≤ m.buffer_pos) (hhi : m.buffer_pos ≤ m.buffer_size)
    (hcap : m.buffer_size < 2 ^ 31) (hlen : (s.length : Int) < 2 ^ 31 - 1) (hz : 0 ∉ s) :
    ((∃ m', append_to_buffer_int32 m s = some (m', false)) ↔
        m.buffer_size - m.buffer_pos < (s.length : Int) + 1) ∧
      (∀ m', append_to_buffer_int32 m s = some (m', false) → m' = m) ∧
      (m.buffer_size ≤ m.buffer.length →
        append_to_buffer_int32 m s = some (append_to_buffer m s)) := by
  have hl : (strlen s : Int) = s.length := by rw [strlen_of_zero_free hz]
  have h0 : (0 : Int) ≤ s.length := Int.ofNat_nonneg _
  have hsize : wrap_int32 (strlen s) = s.length := by
    rw [hl]
    exact wrap_int32_of_range (by omega) (by omega)
  have hsum : wrap_int32 ((s.length : Int) + 1) = (s.length : Int) + 1 :=
    wrap_int32_of_range (by omega) (by omega)
  have hdiff : wrap_int32 (m.buffer_size - m.buffer_pos) = m.buffer_size - m.buffer_pos :=
    wrap_int32_of_range (by omega) (by omega)
  refine ⟨?_, append_to_buffer_int32_fail m s, fun hbuf =>
    append_to_buffer_int32_eq m s hlo hhi hcap (by rw [hl]; exact hlen) hbuf⟩
  constructor
  · rintro ⟨m', h⟩
    by_contra hc
    unfold append_to_buffer_int32 at h
    simp only [hsize, hsum, hdiff, hc, if_false] at h
    split at h
    · exact absurd (Prod.mk.inj (Option.some.inj h)).2 (by decide)
    · exact Option.noConfusion h
  · intro hc
    refine ⟨m, ?_⟩
    unfold append_to_buffer_int32
    simp only [hsize, hsum, hdiff, hc, if_true]

/-- C3 as amended, at a buffer of capacity 64 with the cursor at 62: `ab` needs three bytes
and is refused with the record untouched. -/
theorem append_to_buffer_fails_iff_witness :
    (∃ m', append_to_buffer_int32 { session_64 with buffer_pos := 62 } (c_lit "ab") =
        some (m', false)) ∧
      append_to_buffer_int32 { session_64 with buffer_pos := 62 } (c_lit "ab") =
        some ({ session_64 with buffer_pos := 62 }, false) :=
  ⟨(append_to_buffer_fails_iff { session_64 with buffer_pos := 62 } (c_lit "ab")
      (by decide) (by decide) (by decide) (by decide) (by decide)).1.mpr (by decide),
    ((append_to_buffer_fails_iff { session_64 with buffer_pos := 62 } (c_lit "ab")
      (by decide) (by decide) (by decide) (by decide) (by decide)).2.2 (by decide)).trans
      (by decide)⟩

theorem make_error_inj {a b : List Nat} : make_error a = make_error b ↔ c_str a = c_str b := by
  simp [make_error, lean_mk_io_user_error, lean_mk_string]

theorem run_unfold (m : mysql) (status : Int) (error : List Nat) (result : Option MYSQL_RES) :
    lean_mysql_run m status error result =
      if m.logged = false then (m, make_error (c_lit "Not logged in."))
      else if status ≠ 0 then (query_all m status result, make_error error)
      else (query_all m status result, lean_io_result_mk_ok (lean_box 0)) := by
  unfold lean_mysql_run lean_mysql_manage_db
  have hst : (query_all m status result).status = status := rfl
  simp only [hst]
  cases m.logged <;> by_cases hs : status = 0 <;> simp [hs]

/-- C5, counterexample: the logged-in `session_64` gets the error "Not logged in." from run
and from query when the statement fails and the client reports that text, and the session
`mysql_default`, which is not logged in, gets the error "Already logged in. Try using 'close'
first." from login when the connect fails and the client reports that text. -/
theorem client_error_text_collides :
    session_64.logged = true ∧
      (lean_mysql_run session_64 1 (c_lit "Not logged in.") none).2 =
        make_error (c_lit "Not logged in.") ∧
      (lean_mysql_query session_64 1 (c_lit "Not logged in.") ann_bo).2 =
        make_error (c_lit "Not logged in.") ∧
      mysql_default.logged = false ∧
      (lean_mysql_login mysql_default true false
          (c_lit "Already logged in. Try using 'close' first.")).2 =
        make_error (c_lit "Already logged in. Try using 'close' first.") := by
  decide

/-- C5 as amended: when the text the client library reports for a failed statement differs
from "Not logged in." and the text it reports for a failed connect differs from "Already
logged in. Try using 'close' first.", `lean_mysql_run` and `lean_mysql_query` return the error
"Not logged in." exactly when the `logged` flag is false, and `lean_mysql_login` returns the
error "Already logged in. Try using 'close' first." exactly when it is true.  (The code tells
its errors apart by their text only.) -/
theorem not_logged_in_iff (m : mysql) (status : Int) (error : List Nat)
    (result : Option MYSQL_RES) (res : MYSQL_RES) (init_ok connect_ok : Bool)
    (connect_error : List Nat)
    (herr : c_str error ≠ c_lit "Not logged in.")
    (hconn : c_str connect_error ≠ c_lit "Already logged in. Try using 'close' first.") :
    ((lean_mysql_run m status error result).2 = make_error (c_lit "Not logged in.") ↔
        m.logged = false) ∧
      ((lean_mysql_query m status error res).2 = make_error (c_lit "Not logged in.") ↔
        m.logged = false) ∧
      ((lean_mysql_login m init_ok connect_ok connect_error).2 =
          make_error (c_lit "Already logged in. Try using 'close' first.") ↔
        m.logged = true) := by
  have h1 : c_str (c_lit "Not logged in.") = c_lit "Not logged in." := by decide
  have h2 : c_str (c_lit "Already logged in. Try using 'close' first.") =
      c_lit "Already logged in. Try using 'close' first." := by decide
  refine ⟨?_, ?_, ?_⟩
  · rw [run_unfold]
    cases hl : m.logged
    · simp
    · by_cases hs : status = 0
      · simp [hs, (make_error_ne_ok _ _).symm]
      · simp [hs, make_error_inj, h1, herr]
  · rw [query_unfold]
    cases hl : m.logged
    · simp
    · by_cases hs : status = 0
      · subst hs
        cases he : (encode_result res (reset_buffer (query_all m 0 (some res)))).2
        · simp only [Bool.true_eq_false, if_false, ne_eq, not_true_eq_false, if_true,
            make_error_inj, h1, iff_false]
          decide
        · simp [(make_error_ne_ok _ _).symm]
      · simp [hs, make_error_inj, h1, herr]
  · unfold lean_mysql_login
    cases hl : m.logged
    · cases init_ok
      · simp only [Bool.false_eq_true, if_false, Bool.not_false, if_true, make_error_inj, h2,
          iff_false]
        decide
      · cases connect_ok
        · simp [make_error_inj, h2, hconn]
        · simp [(make_error_ne_ok _ _).symm]
    · simp

/-- C5 as amended, at concrete sessions: `mysql_default`, which is not logged in, gets "Not
logged in." from run and query and no "Already logged in" from login; the logged-in
`session_64` gets the opposite. -/
theorem not_logged_in_iff_witness :
    ((lean_mysql_run mysql_default 0 [] none).2 =
        make_error (c_lit "Not logged in.") ∧
      (lean_mysql_query mysql_default 0 [] ann_bo).2 =
        make_error (c_lit "Not logged in.") ∧
      (lean_mysql_login mysql_default true true []).2 ≠
        make_error (c_lit "Already logged in. Try using 'close' first.")) ∧
    ((lean_mysql_run session_64 1 (c_lit "syntax error") none).2 ≠
        make_error (c_lit "Not logged in.") ∧
      (lean_mysql_query session_64 0 [] ann_bo).2 ≠ make_error (c_lit "Not logged in.") ∧
      (lean_mysql_login session_64 true true []).2 =
        make_error (c_lit "Already logged in. Try using 'close' first.")) :=
  ⟨⟨(not_logged_in_iff mysql_default 0 [] none ann_bo true true []
        (by decide) (by decide)).1.mpr (by decide),
      (not_logged_in_iff mysql_default 0 [] none ann_bo true true []
        (by decide) (by decide)).2.1.mpr (by decide),
      fun h => absurd ((not_logged_in_iff mysql_default 0 [] none ann_bo
        true true [] (by decide) (by decide)).2.2.mp h) (by decide)⟩,
    ⟨fun h => absurd ((not_logged_in_iff session_64 1 (c_lit "syntax error") none ann_bo
        true true [] (by decide) (by decide)).1.mp h) (by decide),
      fun h => absurd ((not_logged_in_iff session_64 0 [] none ann_bo
        true true [] (by decide) (by decide)).2.1.mp h) (by decide),
      (not_logged_in_iff session_64 0 [] none ann_bo true true []
        (by decide) (by decide)).2.2.mpr (by decide)⟩⟩

/-- C6, counterexample: `after_ann_bo` is logged in and holds a result; a query whose
statement fails (status 1) returns the client's error, and `has_result` is still true: the
next fetch hands out the blob of the earlier query. -/
theorem failed_statement_result_still_set :
    after_ann_bo.logged = true ∧
      (lean_mysql_query after_ann_bo 1 (c_lit "Unknown column") x_float).2 =
        make_error (c_lit "Unknown column") ∧
      (lean_mysql_query after_ann_bo 1 (c_lit "Unknown column") x_float).1.has_result = true ∧
      (lean_mysql_get_query_result
        (lean_mysql_query after_ann_bo 1 (c_lit "Unknown column") x_float).1).2 =
          lean_object.str (c_lit "id nat~name string¨1~Ann¨NULL~Bo¨") := by
  decide

/-- C6 as amended: when the statement of `lean_mysql_query` fails in a logged-in session, the
call returns the client's error before the buffer is reset, so `has_result`, the cursor and
the buffer are what they were before the call (false stays false, true stays true) and a
fetch returns what it would have returned before. -/
theorem failed_statement_leaves_result (m : mysql) (status : Int) (error : List Nat)
    (res : MYSQL_RES) (hlog : m.logged = true) (hst : status ≠ 0) :
    (lean_mysql_query m status error res).2 = make_error error ∧
      (lean_mysql_query m status error res).1.has_result = m.has_result ∧
      (lean_mysql_query m status error res).1.buffer_pos = m.buffer_pos ∧
      (lean_mysql_query m status error res).1.buffer = m.buffer ∧
      (lean_mysql_get_query_result (lean_mysql_query m status error res).1).2 =
        (lean_mysql_get_query_result m).2 := by
  rw [query_unfold]
  cases h : m.has_result <;> simp [hlog, hst, query_all, lean_mysql_get_query_result, h]

/-- C6 as amended, at `session_64` (no result before, none after) and at `after_ann_bo` (a
result before, still there after). -/
theorem failed_statement_leaves_result_witness :
    (lean_mysql_query session_64 1 (c_lit "Unknown column") x_float).1.has_result = false ∧
      (lean_mysql_query after_ann_bo 1 (c_lit "Unknown column") x_float).1.has_result =
        true :=
  ⟨(failed_statement_leaves_result session_64 1 (c_lit "Unknown column") x_float
      (by decide) (by decide)).2.1,
    (failed_statement_leaves_result after_ann_bo 1 (c_lit "Unknown column") x_float
      (by decide) (by decide)).2.1⟩

theorem c_str_append_zero (a rest : List Nat) (h : 0 ∉ a) : c_str (a ++ 0 :: rest) = a := by
  unfold c_str
  rw [List.takeWhile_append_of_pos]
  · simp
  · intro b hb
    simp only [ne_eq, decide_eq_true_eq]
    rintro rfl
    exact h hb

theorem c_str_fresh_block : c_str fresh_block = c_lit "junk" := by
  have h : fresh_block = c_lit "junk" ++ 0 :: List.replicate 1019 0 := by
    unfold fresh_block
    rw [show (1020 : Nat) = 1019 + 1 from rfl, List.replicate_succ]
  rw [h]
  exact c_str_append_zero _ _ (by decide)

theorem set_buffer_size_some (m : mysql) (b : Nat) (block : List Nat) :
    lean_mysql_set_buffer_size m b (some block) =
      ({ m with buffer := block, buffer_size := buffer_units_to_size b },
        lean_io_result_mk_ok (lean_box 0)) :=
  rfl

/-- C7, the code at the failing input: a successful `lean_mysql_set_buffer_size` writes
`buffer` and `buffer_size` and nothing else, so `has_result` and the cursor survive it; after
the successful query of `after_ann_bo` a resize to 2 units (a block of 1024 bytes) succeeds,
`has_result` is still true and the fetch returns the bytes `malloc` left in the new block
instead of the empty string. -/
theorem resize_keeps_has_result :
    (∀ (m : mysql) (b : Nat) (block : List Nat),
      lean_mysql_set_buffer_size m b (some block) =
        ({ m with buffer := block, buffer_size := buffer_units_to_size b },
          lean_io_result_mk_ok (lean_box 0))) ∧
    after_ann_bo.has_result = true ∧
    (fresh_block.length : Int) = buffer_units_to_size 2 ∧
    (lean_mysql_set_buffer_size after_ann_bo 2 (some fresh_block)).2 =
      lean_io_result_mk_ok (lean_box 0) ∧
    (lean_mysql_set_buffer_size after_ann_bo 2 (some fresh_block)).1.has_result = true ∧
    (lean_mysql_get_query_result
      (lean_mysql_set_buffer_size after_ann_bo 2 (some fresh_block)).1).2 =
        lean_object.str (c_lit "junk") := by
  have hres : after_ann_bo.has_result = true := by decide
  have hlen : (c_lit "junk").length = 4 := by decide
  have hsize : buffer_units_to_size 2 = 1024 := by decide
  refine ⟨fun m b block => rfl, hres, ?_, ?_, ?_, ?_⟩
  · rw [hsize]
    simp only [fresh_block, List.length_append, List.length_replicate, hlen]
    rfl
  · rw [set_buffer_size_some]
  · rw [set_buffer_size_some]
    exact hres
  · rw [set_buffer_size_some]
    simp only [lean_mysql_get_query_result, hres, lean_mk_string, c_str_fresh_block,
      Bool.not_true, Bool.false_eq_true, if_false]

theorem close_connection_some {m m' : mysql} (h : close_connection m = some m') :
    m' = { m with
      logged := false
      connection_released := m.connection
      result_released := m.result.isSome } := by
  unfold close_connection at h
  split at h
  · exact Option.noConfusion h
  · exact (Option.some.inj h).symm

theorem lean_mysql_close_some {m m' : mysql} {r : lean_object}
    (h : lean_mysql_close m = some (m', r)) :
    close_connection m = some m' ∧ r = lean_io_result_mk_ok (lean_box 0) := by
  unfold lean_mysql_close at h
  cases hc : close_connection m with
  | none =>
    rw [hc] at h
    exact Option.noConfusion h
  | some m'' =>
    rw [hc] at h
    have := Option.some.inj h
    exact ⟨by rw [(Prod.mk.inj this).1], (Prod.mk.inj this).2.symm⟩

/-- The function `lean_mysql_close` returns exactly when no object it releases has been released
before; the first close after a login or a query returns, a second close right after it
does not. -/
theorem lean_mysql_close_returns_iff (m : mysql) :
    (lean_mysql_close m).isSome = true ↔
      ¬ ((m.connection = true ∧ m.connection_released = true) ∨
        (m.result.isSome = true ∧ m.result_released = true)) := by
  unfold lean_mysql_close close_connection
  by_cases hc : (m.connection && m.connection_released) || (m.result.isSome && m.result_released)
  · simp only [hc, if_true, Option.isSome_none, Bool.false_eq_true, false_iff, not_not]
    simpa using hc
  · simp only [hc, Bool.false_eq_true, if_false, Option.isSome_some, true_iff]
    simpa using hc

/-- A second close right after the close of `after_ann_bo` releases both client objects a
second time: it has no result. -/
theorem second_close_aborts : lean_mysql_close closed_ann_bo = none := by
  rfl

/-- C8, counterexample: closing `after_ann_bo` returns and clears `logged`, but `has_result`
is still true, and the fetch after the close returns the blob of the earlier query, not the
empty string. -/
theorem close_result_still_set :
    (lean_mysql_close after_ann_bo).map (fun r => r.1.logged) = some false ∧
      (lean_mysql_close after_ann_bo).map (fun r => r.1.has_result) = some true ∧
      (lean_mysql_close after_ann_bo).map
          (fun r => (lean_mysql_get_query_result r.1).2) =
        some (lean_object.str (c_lit "id nat~name string¨1~Ann¨NULL~Bo¨")) := by
  decide

/-- C8 as amended: after a `lean_mysql_close` that has returned the session `m'` it leaves has
`logged` false, while `has_result`, the cursor, the capacity and the buffer are what they
were in `m`; so a fetch after the close returns exactly what a fetch before the close returned
(the empty string when `has_result` was false). -/
theorem close_leaves_result (m m' : mysql) (r : lean_object)
    (h : lean_mysql_close m = some (m', r)) :
    m'.logged = false ∧
      m'.has_result = m.has_result ∧
      m'.buffer_pos = m.buffer_pos ∧
      m'.buffer_size = m.buffer_size ∧
      m'.buffer = m.buffer ∧
      (lean_mysql_get_query_result m').2 = (lean_mysql_get_query_result m).2 ∧
      (m.has_result = false →
        (lean_mysql_get_query_result m').2 =
          lean_io_result_mk_ok (lean_mk_string (c_lit ""))) := by
  have hm := close_connection_some (lean_mysql_close_some h).1
  subst hm
  refine ⟨rfl, rfl, rfl, rfl, rfl, ?_, ?_⟩
  · cases h : m.has_result <;> simp [lean_mysql_get_query_result, h]
  · intro h
    simp [lean_mysql_get_query_result, h]

/-- C8 as amended, at `after_ann_bo`: the close returns the session `closed_ann_bo`, which is
logged out and still has its result, and the fetch after the close returns the same object as
the fetch before it. -/
theorem close_leaves_result_witness :
    lean_mysql_close after_ann_bo =
        some (closed_ann_bo, lean_io_result_mk_ok (lean_box 0)) ∧
      closed_ann_bo.logged = false ∧
      closed_ann_bo.has_result = after_ann_bo.has_result ∧
      (lean_mysql_get_query_result closed_ann_bo).2 =
        (lean_mysql_get_query_result after_ann_bo).2 :=
  ⟨rfl,
    (close_leaves_result after_ann_bo closed_ann_bo (lean_io_result_mk_ok (lean_box 0))
      rfl).1,
    (close_leaves_result after_ann_bo closed_ann_bo (lean_io_result_mk_ok (lean_box 0))
      rfl).2.1,
    (close_leaves_result after_ann_bo closed_ann_bo (lean_io_result_mk_ok (lean_box 0))
      rfl).2.2.2.2.2.1⟩

/-- C9: after a successful `lean_mysql_query`, `has_result` is true and
`lean_mysql_get_query_result` returns the string made of exactly the buffer bytes at offsets
0..cursor, which for zero-free names and values is the complete blob of the specification;
and for every session with `has_result` false it returns the empty string wrapped as a
successful result, not an error. -/
theorem fetch_returns_blob (m : mysql) (status : Int) (error : List Nat) (res : MYSQL_RES)
    (hok : (lean_mysql_query m status error res).2 = lean_io_result_mk_ok (lean_box 0)) :
    (lean_mysql_query m status error res).1.has_result = true ∧
      (lean_mysql_get_query_result (lean_mysql_query m status error res).1).2 =
        lean_object.str ((lean_mysql_query m status error res).1.buffer.take
          (lean_mysql_query m status error res).1.buffer_pos.toNat) ∧
      (zero_free res →
        (lean_mysql_get_query_result (lean_mysql_query m status error res).1).2 =
          lean_object.str (spec_blob res)) ∧
      (∀ m₀ : mysql, m₀.has_result = false →
        lean_mysql_get_query_result m₀ = (m₀, lean_io_result_mk_ok (lean_object.str []))) := by
  have ht := query_ok_terminated hok
  have hres : (lean_mysql_query m status error res).1.has_result = true := by
    rw [(query_ok hok).2.2.2]
  have hfetch : (lean_mysql_get_query_result (lean_mysql_query m status error res).1).2 =
      lean_object.str ((lean_mysql_query m status error res).1.buffer.take
        (lean_mysql_query m status error res).1.buffer_pos.toNat) := by
    simp only [lean_mysql_get_query_result, hres, Bool.not_true, Bool.false_eq_true, if_false,
      lean_mk_string]
    rw [terminated_c_str ht (flatten_c_str_zero_free _), terminated_take ht]
  refine ⟨hres, hfetch, ?_, ?_⟩
  · intro hz
    rw [hfetch, terminated_take ht, flat_encode_pieces res hz]
  · intro m₀ h
    rw [fetch_without_result h]
    rfl

/-- C9 at the first example of the specification: the fetch after the query returns
`id nat~name string¨1~Ann¨NULL~Bo¨`. -/
theorem fetch_returns_blob_witness :
    (lean_mysql_query session_64 0 [] ann_bo).1.has_result = true ∧
      (lean_mysql_get_query_result (lean_mysql_query session_64 0 [] ann_bo).1).2 =
        lean_object.str (c_lit "id nat~name string¨1~Ann¨NULL~Bo¨") :=
  ⟨(fetch_returns_blob session_64 0 [] ann_bo (by decide)).1,
    ((fetch_returns_blob session_64 0 [] ann_bo (by decide)).2.2.1 (by decide)).trans
      (by decide)⟩

/-- C10: `type_to_str` is a total function of the tag and returns one of the three labels
`nat`, `float`, `string`; the tags TINY, SHORT, INT24, LONG and LONGLONG give `nat`; and every
tag outside the integer family and outside the family DECIMAL, NEWDECIMAL, FLOAT, DOUBLE,
known to the header or not, gives `string`. -/
theorem type_to_str_labels (t : Int) :
    (type_to_str t = c_lit "nat" ∨ type_to_str t = c_lit "float" ∨
        type_to_str t = c_lit "string") ∧
      type_to_str MYSQL_TYPE_TINY = c_lit "nat" ∧
      type_to_str MYSQL_TYPE_SHORT = c_lit "nat" ∧
      type_to_str MYSQL_TYPE_INT24 = c_lit "nat" ∧
      type_to_str MYSQL_TYPE_LONG = c_lit "nat" ∧
      type_to_str MYSQL_TYPE_LONGLONG = c_lit "nat" ∧
      (t ∉ [MYSQL_TYPE_TINY, MYSQL_TYPE_SHORT, MYSQL_TYPE_INT24, MYSQL_TYPE_LONG,
          MYSQL_TYPE_LONGLONG] →
        t ∉ [MYSQL_TYPE_DECIMAL, MYSQL_TYPE_NEWDECIMAL, MYSQL_TYPE_FLOAT,
          MYSQL_TYPE_DOUBLE] →
        type_to_str t = c_lit "string") := by
  refine ⟨type_to_str_cases t, by decide, by decide, by decide, by decide, by decide, ?_⟩
  intro h1 h2
  simp only [List.mem_cons, List.mem_singleton, List.not_mem_nil, or_false, not_or] at h1 h2
  obtain ⟨a1, a2, a3, a4, a5⟩ := h1
  obtain ⟨b1, _, b3, b4⟩ := h2
  simp [type_to_str, a1, a2, a3, a4, a5, b1, b3, b4]

/-- C10 at a text tag, at a tag no header defines, and at a negative value. -/
theorem type_to_str_labels_witness :
    type_to_str MYSQL_TYPE_VAR_STRING = c_lit "string" ∧ type_to_str 9999 = c_lit "string" ∧
      type_to_str (-1) = c_lit "string" :=
  ⟨(type_to_str_labels MYSQL_TYPE_VAR_STRING).2.2.2.2.2.2 (by decide) (by decide),
    (type_to_str_labels 9999).2.2.2.2.2.2 (by decide) (by decide),
    (type_to_str_labels (-1)).2.2.2.2.2.2 (by decide) (by decide)⟩

/-- C11, the code at the failing input: the tags DECIMAL, FLOAT and DOUBLE give `float`, but
`MYSQL_TYPE_NEWDECIMAL` (246) has no `case` in the `switch`, falls to the `default` and gives
`string`. -/
theorem newdecimal_gives_string :
    type_to_str MYSQL_TYPE_DECIMAL = c_lit "float" ∧
      type_to_str MYSQL_TYPE_FLOAT = c_lit "float" ∧
      type_to_str MYSQL_TYPE_DOUBLE = c_lit "float" ∧
      MYSQL_TYPE_NEWDECIMAL = 246 ∧
      type_to_str MYSQL_TYPE_NEWDECIMAL = c_lit "string" ∧
      type_to_str MYSQL_TYPE_NEWDECIMAL ≠ c_lit "float" := by
  decide

/-- C12: `lean_mysql_get_query_result` returns the session record exactly as it received it
(buffer, cursor, capacity, `has_result`, `logged` and every other field), so a second call
returns the same object as the first, and so does every later call after any number of
calls. -/
theorem fetch_idempotent (m : mysql) :
    (lean_mysql_get_query_result m).1 = m ∧
      (lean_mysql_get_query_result (lean_mysql_get_query_result m).1).2 =
        (lean_mysql_get_query_result m).2 ∧
      ∀ n : Nat,
        (lean_mysql_get_query_result
          (Nat.iterate (fun s => (lean_mysql_get_query_result s).1) n m)).2 =
          (lean_mysql_get_query_result m).2 := by
  have h : ∀ s : mysql, (lean_mysql_get_query_result s).1 = s := by
    intro s
    unfold lean_mysql_get_query_result
    cases s.has_result <;> rfl
  refine ⟨h m, by rw [h m], ?_⟩
  intro n
  have hn : Nat.iterate (fun s => (lean_mysql_get_query_result s).1) n m = m := by
    induction n with
    | zero => rfl
    | succ k ih => rw [Function.iterate_succ_apply', ih, h m]
  rw [hn]

theorem total_len_cons (s : List Nat) (ps : List (List Nat)) :
    total_len (s :: ps) = strlen s + total_len ps := by
  simp [total_len, strlen]

theorem and_then_ok_iff (r : mysql × Bool) (k : mysql → mysql × Bool) :
    (and_then r k).2 = true ↔ r.2 = true ∧ (k r.1).2 = true := by
  unfold and_then
  cases h : r.2 <;> simp

theorem append_to_buffer_pos (m : mysql) (s : List Nat)
    (h : (append_to_buffer m s).2 = true) :
    (append_to_buffer m s).1.buffer_pos = m.buffer_pos + (strlen s : Int) ∧
      (append_to_buffer m s).1.buffer_size = m.buffer_size := by
  rw [append_to_buffer_fst m s h]
  exact ⟨rfl, rfl⟩

/-- A run of appends succeeds exactly when the last one does: when all the bytes and one
closing zero byte fit behind the cursor. -/
theorem append_all_ok_iff (s : List Nat) (ps : List (List Nat)) (m : mysql) :
    (append_all (s :: ps) m).2 = true ↔
      m.buffer_pos + (total_len (s :: ps) : Int) + 1 ≤ m.buffer_size := by
  induction ps generalizing s m with
  | nil =>
    rw [append_all_singleton, append_to_buffer_ok_iff, total_len_cons]
    simp only [total_len, List.map_nil, List.flatten_nil, List.length_nil]
    omega
  | cons t ps ih =>
    rw [append_all, and_then_ok_iff, append_to_buffer_ok_iff, total_len_cons]
    constructor
    · rintro ⟨h1, h2⟩
      have hp := append_to_buffer_pos m s ((append_to_buffer_ok_iff m s).mpr h1)
      rw [ih, hp.1, hp.2] at h2
      push_cast
      omega
    · intro h
      have h1 : (strlen s : Int) + 1 ≤ m.buffer_size - m.buffer_pos := by
        push_cast at h
        omega
      refine ⟨h1, ?_⟩
      have hp := append_to_buffer_pos m s ((append_to_buffer_ok_iff m s).mpr h1)
      rw [ih, hp.1, hp.2]
      push_cast at h
      omega

/-- After a successful run of appends the cursor has moved by the bytes written, and the
capacity is the same. -/
theorem append_all_pos (ps : List (List Nat)) (m : mysql)
    (h : (append_all ps m).2 = true) :
    (append_all ps m).1.buffer_pos = m.buffer_pos + (total_len ps : Int) ∧
      (append_all ps m).1.buffer_size = m.buffer_size := by
  induction ps generalizing m with
  | nil => simp [append_all, total_len]
  | cons s ps ih =>
    rw [append_all] at h ⊢
    obtain ⟨h1, h2⟩ := and_then_snd h
    rw [and_then_of_ok _ h1]
    have hp := append_to_buffer_pos m s h1
    have := ih _ h2
    rw [this.1, this.2, hp.1, hp.2, total_len_cons]
    push_cast
    omega

theorem encode_result_ok_iff (res : MYSQL_RES) (m : mysql) :
    (encode_result res m).2 = true ↔
      m.buffer_pos + (encoded_length res : Int) + 1 ≤ m.buffer_size := by
  rw [encode_result_eq]
  obtain ⟨s, ps, hps⟩ := encode_pieces_cons res
  unfold encoded_length
  rw [hps]
  exact append_all_ok_iff s ps m

theorem encoded_length_zero_free (res : MYSQL_RES) (hz : zero_free res) :
    encoded_length res = (spec_blob res).length := by
  unfold encoded_length total_len
  rw [flat_encode_pieces res hz]

theorem query_ok_iff (m : mysql) (error : List Nat) (res : MYSQL_RES)
    (hlog : m.logged = true) :
    (lean_mysql_query m 0 error res).2 = lean_io_result_mk_ok (lean_box 0) ↔
      (encode_result res (reset_buffer (query_all m 0 (some res)))).2 = true := by
  rw [query_unfold]
  cases he : (encode_result res (reset_buffer (query_all m 0 (some res)))).2
  · simp [hlog, make_error_ne_ok]
  · simp [hlog]

/-- C16: for a logged-in session of capacity `K` and a result set whose complete encoding
(header and rows, without the final zero byte) is `L` bytes long, the encoding loop of
`lean_mysql_query` succeeds, and with it the query, exactly when `L + 1 ≤ K`: the check made
on every single append rejects the same result sets as one check that the whole blob and one
closing byte fit.  For zero-free names and values `L` is the length of the blob the
specification describes. -/
theorem encode_overflow_boundary (m : mysql) (error : List Nat) (res : MYSQL_RES)
    (hlog : m.logged = true) :
    ((encode_result res (reset_buffer (query_all m 0 (some res)))).2 = true ↔
        (encoded_length res : Int) + 1 ≤ m.buffer_size) ∧
      ((lean_mysql_query m 0 error res).2 = lean_io_result_mk_ok (lean_box 0) ↔
        (encoded_length res : Int) + 1 ≤ m.buffer_size) ∧
      (zero_free res → encoded_length res = (spec_blob res).length) := by
  have h : (encode_result res (reset_buffer (query_all m 0 (some res)))).2 = true ↔
      (encoded_length res : Int) + 1 ≤ m.buffer_size := by
    rw [encode_result_ok_iff]
    show (0 : Int) + (encoded_length res : Int) + 1 ≤ m.buffer_size ↔ _
    rw [Int.zero_add]
  exact ⟨h, (query_ok_iff m error res hlog).trans h, encoded_length_zero_free res⟩

/-- C16 at the first example of the specification, whose blob has 36 bytes: a capacity of 37
is enough, a capacity of 36 is not. -/
theorem encode_overflow_boundary_witness :
    encoded_length ann_bo = 36 ∧
      (lean_mysql_query { session_64 with buffer_size := 37, buffer := List.replicate 37 170 }
        0 [] ann_bo).2 = lean_io_result_mk_ok (lean_box 0) ∧
      (lean_mysql_query { session_64 with buffer_size := 36, buffer := List.replicate 36 170 }
        0 [] ann_bo).2 ≠ lean_io_result_mk_ok (lean_box 0) :=
  ⟨by decide,
    (encode_overflow_boundary
      { session_64 with buffer_size := 37, buffer := List.replicate 37 170 } [] ann_bo
      (by decide)).2.1.mpr (by decide),
    fun h => absurd ((encode_overflow_boundary
      { session_64 with buffer_size := 36, buffer := List.replicate 36 170 } [] ann_bo
      (by decide)).2.1.mp h) (by decide)⟩

theorem append_all_room (s : List Nat) (ps : List (List Nat)) (m : mysql)
    (h : (append_all (s :: ps) m).2 = true) :
    (append_all (s :: ps) m).1.buffer_pos + 1 ≤ (append_all (s :: ps) m).1.buffer_size := by
  have hp := append_all_pos (s :: ps) m h
  rw [hp.1, hp.2]
  exact (append_all_ok_iff s ps m).mp h

theorem before_final_append_eq (res : MYSQL_RES) (m : mysql) :
    before_final_append res m =
      append_all (header_pieces (mysql_num_fields res) 0 res.fields ++ c_lit "¨" ::
        rows_pieces (mysql_num_fields res) res.rows) m := by
  simp only [before_final_append, header_loop_eq, rows_loop_eq, append_all_append,
    append_all_append_fun, and_then_assoc, append_all, and_then_pure]

theorem encode_result_split (res : MYSQL_RES) (m : mysql) :
    encode_result res m =
      and_then (before_final_append res m) fun m => append_to_buffer m (c_lit "\x00") := by
  simp only [encode_result, before_final_append, and_then_assoc]

/-- C17: a successful `append_to_buffer` leaves the cursor strictly below the capacity;
the encoding is the part in front of the final append followed by that append; and whenever
that part succeeds (it always contains the append of the header's record terminator), the
final append of `"\0"` succeeds and leaves the cursor where it was. -/
theorem final_append_succeeds (res : MYSQL_RES) (m : mysql)
    (h : (before_final_append res m).2 = true) :
    (append_to_buffer (before_final_append res m).1 (c_lit "\x00")).2 = true ∧
      (append_to_buffer (before_final_append res m).1 (c_lit "\x00")).1.buffer_pos =
        (before_final_append res m).1.buffer_pos ∧
      (before_final_append res m).1.buffer_pos < (before_final_append res m).1.buffer_size ∧
      (encode_result res m =
        and_then (before_final_append res m) fun m => append_to_buffer m (c_lit "\x00")) ∧
      (encode_result res m).2 = true ∧
      (∀ (m₀ : mysql) (s : List Nat), (append_to_buffer m₀ s).2 = true →
        (append_to_buffer m₀ s).1.buffer_pos < (append_to_buffer m₀ s).1.buffer_size) := by
  have hlen : strlen (c_lit "\x00") = 0 := by decide
  have hroom : (before_final_append res m).1.buffer_pos + 1 ≤
      (before_final_append res m).1.buffer_size := by
    rw [before_final_append_eq] at h ⊢
    cases hh : header_pieces (mysql_num_fields res) 0 res.fields with
    | nil =>
      rw [hh] at h
      exact append_all_room _ _ m h
    | cons a l =>
      rw [hh] at h
      exact append_all_room _ _ m h
  have hok : (append_to_buffer (before_final_append res m).1 (c_lit "\x00")).2 = true := by
    rw [append_to_buffer_ok_iff, hlen]
    push_cast
    omega
  refine ⟨hok, ?_, by omega, encode_result_split res m, ?_, ?_⟩
  · rw [(append_to_buffer_pos _ _ hok).1, hlen]
    simp
  · rw [encode_result_split, and_then_of_ok _ h]
    exact hok
  · intro m₀ s hs
    have hp := append_to_buffer_pos m₀ s hs
    have hfit := (append_to_buffer_ok_iff m₀ s).mp hs
    rw [hp.1, hp.2]
    omega

/-- C17 at the first example of the specification in the 64-byte buffer: the final append is
reached with the cursor at 36, succeeds and leaves it at 36. -/
theorem final_append_succeeds_witness :
    (before_final_append ann_bo (reset_buffer session_64)).1.buffer_pos = 36 ∧
      (append_to_buffer (before_final_append ann_bo (reset_buffer session_64)).1
        (c_lit "\x00")).2 = true ∧
      (append_to_buffer (before_final_append ann_bo (reset_buffer session_64)).1
        (c_lit "\x00")).1.buffer_pos = 36 :=
  ⟨by decide,
    (final_append_succeeds ann_bo (reset_buffer session_64) (by decide)).1,
    (final_append_succeeds ann_bo (reset_buffer session_64) (by decide)).2.1.trans
      (by decide)⟩

theorem query_not_ok {m : mysql} (error : List Nat) {res : MYSQL_RES} (status : Int)
    (hst : status ≠ 0) (hlog : m.logged = true) :
    lean_mysql_query m status error res =
      (query_all m status (some res), make_error error) := by
  rw [query_unfold]
  simp [hlog, hst]

/-- C15: `lean_mysql_query` starts the encoding at cursor 0, so for two logged-in sessions of
the same capacity, whatever their cursor, buffer contents and `has_result` were, the same
answer of the client gives the same returned object (success, the overflow error, or the
client's error), and on success the same cursor and the same bytes at offsets 0..cursor. -/
theorem query_independent_of_buffer (m₁ m₂ : mysql) (status : Int) (error : List Nat)
    (res : MYSQL_RES) (h₁ : m₁.logged = true) (h₂ : m₂.logged = true)
    (hcap : m₁.buffer_size = m₂.buffer_size) :
    (lean_mysql_query m₁ status error res).2 = (lean_mysql_query m₂ status error res).2 ∧
      ((lean_mysql_query m₁ status error res).2 = lean_io_result_mk_ok (lean_box 0) →
        (lean_mysql_query m₁ status error res).1.buffer_pos =
          (lean_mysql_query m₂ status error res).1.buffer_pos ∧
        (lean_mysql_query m₁ status error res).1.buffer.take
            (lean_mysql_query m₁ status error res).1.buffer_pos.toNat =
          (lean_mysql_query m₂ status error res).1.buffer.take
            (lean_mysql_query m₂ status error res).1.buffer_pos.toNat ∧
        (lean_mysql_query m₁ status error res).1.has_result =
          (lean_mysql_query m₂ status error res).1.has_result) := by
  by_cases hst : status = 0
  · subst hst
    have e₁ := encode_result_ok_iff res (reset_buffer (query_all m₁ 0 (some res)))
    have e₂ := encode_result_ok_iff res (reset_buffer (query_all m₂ 0 (some res)))
    have hsame : (encode_result res (reset_buffer (query_all m₁ 0 (some res)))).2 = true ↔
        (encode_result res (reset_buffer (query_all m₂ 0 (some res)))).2 = true := by
      rw [e₁, e₂]
      show _ ≤ m₁.buffer_size ↔ _ ≤ m₂.buffer_size
      rw [hcap]
      exact Iff.rfl
    cases hc : (encode_result res (reset_buffer (query_all m₁ 0 (some res)))).2
    · have hc₂ : (encode_result res (reset_buffer (query_all m₂ 0 (some res)))).2 = false := by
        cases hx : (encode_result res (reset_buffer (query_all m₂ 0 (some res)))).2
        · rfl
        · rw [hsame.mpr hx] at hc
          exact Bool.noConfusion hc
      rw [query_overflow error h₁ hc, query_overflow error h₂ hc₂]
      exact ⟨rfl, fun h => absurd h (make_error_ne_ok _ _)⟩
    · have hok₁ := (query_ok_iff m₁ error res h₁).mpr hc
      have hok₂ := (query_ok_iff m₂ error res h₂).mpr (hsame.mp hc)
      have t₁ := query_ok_terminated hok₁
      have t₂ := query_ok_terminated hok₂
      refine ⟨hok₁.trans hok₂.symm, fun _ => ⟨t₁.1.trans t₂.1.symm, ?_, ?_⟩⟩
      · rw [terminated_take t₁, terminated_take t₂]
      · rw [(query_ok hok₁).2.2.2, (query_ok hok₂).2.2.2]
  · rw [query_not_ok error status hst h₁, query_not_ok error status hst h₂]
    exact ⟨rfl, fun h => absurd h (make_error_ne_ok _ _)⟩

/-- C15 at two 64-byte sessions, the fresh `session_64` and `after_ann_bo` with an old blob,
an old cursor and `has_result` set: the query for `x_float` succeeds in both and leaves the
cursor at 9 and the bytes `x float¨` in both. -/
theorem query_independent_of_buffer_witness :
    (lean_mysql_query session_64 0 [] x_float).2 = lean_io_result_mk_ok (lean_box 0) ∧
      (lean_mysql_query after_ann_bo 0 [] x_float).2 = lean_io_result_mk_ok (lean_box 0) ∧
      (lean_mysql_query after_ann_bo 0 [] x_float).1.buffer_pos = 9 ∧
      (lean_mysql_query after_ann_bo 0 [] x_float).1.buffer.take
          (lean_mysql_query after_ann_bo 0 [] x_float).1.buffer_pos.toNat =
        c_lit "x float¨" :=
  ⟨by decide,
    (query_independent_of_buffer session_64 after_ann_bo 0 [] x_float (by decide) (by decide)
      (by decide)).1.symm.trans (by decide),
    ((query_independent_of_buffer session_64 after_ann_bo 0 [] x_float (by decide) (by decide)
      (by decide)).2 (by decide)).1.symm.trans (by decide),
    ((query_independent_of_buffer session_64 after_ann_bo 0 [] x_float (by decide) (by decide)
      (by decide)).2 (by decide)).2.1.symm.trans (by decide)⟩

theorem row_pieces_congr (n : Int) (row row' : MYSQL_ROW) (i : Int)
    (h : row.map value_text = row'.map value_text) :
    row_pieces n i row = row_pieces n i row' := by
  induction row generalizing row' i with
  | nil =>
    cases row' with
    | nil => rfl
    | cons w rest' => simp at h
  | cons v rest ih =>
    cases row' with
    | nil => simp at h
    | cons w rest' =>
      simp only [List.map_cons, List.cons.injEq] at h
      simp only [row_pieces, h.1, ih rest' (i + 1) h.2]

theorem rows_pieces_congr (n : Int) (rows rows' : List MYSQL_ROW)
    (h : rows.map (List.map value_text) = rows'.map (List.map value_text)) :
    rows_pieces n rows = rows_pieces n rows' := by
  induction rows generalizing rows' with
  | nil =>
    cases rows' with
    | nil => rfl
    | cons w rest' => simp at h
  | cons row rest ih =>
    cases rows' with
    | nil => simp at h
    | cons row' rest' =>
      simp only [List.map_cons, List.cons.injEq] at h
      simp only [rows_pieces, row_pieces_congr n row row' 0 h.1, ih rest' h.2]

theorem encode_pieces_congr (res res' : MYSQL_RES) (hf : res.fields = res'.fields)
    (hr : res.rows.map (List.map value_text) = res'.rows.map (List.map value_text)) :
    encode_pieces res = encode_pieces res' := by
  simp only [encode_pieces, mysql_num_fields, hf,
    rows_pieces_congr (↑res'.fields.length) res.rows res'.rows hr]

theorem append_to_buffer_result (m : mysql) (r : Option MYSQL_RES) (s : List Nat) :
    append_to_buffer { m with result := r } s =
      ({ (append_to_buffer m s).1 with result := r }, (append_to_buffer m s).2) := by
  unfold append_to_buffer
  by_cases hc : m.buffer_size - m.buffer_pos < (strlen s : Int) + 1
  · simp [hc]
  · simp [hc]

theorem append_all_result (ps : List (List Nat)) (m : mysql) (r : Option MYSQL_RES) :
    append_all ps { m with result := r } =
      ({ (append_all ps m).1 with result := r }, (append_all ps m).2) := by
  induction ps generalizing m with
  | nil => rfl
  | cons s ps ih =>
    simp only [append_all, append_to_buffer_result, and_then]
    cases (append_to_buffer m s).2
    · simp
    · simp only [if_true]
      exact ih _

theorem query_without_result (m : mysql) (status : Int) (error : List Nat) (res : MYSQL_RES) :
    without_result (lean_mysql_query m status error res).1 =
        (if m.logged = false then without_result m
        else if status ≠ 0 then without_result (query_all m status none)
        else if (append_all (encode_pieces res) (reset_buffer (query_all m status none))).2
            = false then
          without_result
            (append_all (encode_pieces res) (reset_buffer (query_all m status none))).1
        else
          without_result
            { (append_all (encode_pieces res) (reset_buffer (query_all m status none))).1 with
              has_result := true }) ∧
      (lean_mysql_query m status error res).2 =
        (if m.logged = false then make_error (c_lit "Not logged in.")
        else if status ≠ 0 then make_error error
        else if (append_all (encode_pieces res) (reset_buffer (query_all m status none))).2
            = false then make_error ERR_INCR_BFFR
        else lean_io_result_mk_ok (lean_box 0)) := by
  have hstart : reset_buffer (query_all m status (some res)) =
      { reset_buffer (query_all m status none) with result := some res } := rfl
  rw [query_unfold, encode_result_eq, hstart, append_all_result]
  cases m.logged
  · simp
  · by_cases hs : status = 0
    · cases (append_all (encode_pieces res) (reset_buffer (query_all m status none))).2 <;>
        simp [hs, without_result]
    · simp [hs, without_result, query_all]

theorem c_str_value_written (v : Option (List Nat)) :
    c_str (value_text v) = written_value v := by
  cases v with
  | none => decide
  | some s => rfl

theorem flat_header_written (n : Int) (fields : List MYSQL_FIELD) (i : Int)
    (hn : i + fields.length = n) :
    ((header_pieces n i fields).map c_str).flatten =
      List.intercalate (c_lit "~")
        (fields.map fun f => c_str f.name ++ c_lit " " ++ type_to_str f.type) := by
  induction fields generalizing i with
  | nil => simp [header_pieces, List.intercalate]
  | cons f rest ih =>
    have hsp : c_str (c_lit " ") = c_lit " " := by decide
    cases rest with
    | nil =>
      simp only [header_pieces, List.map_cons, List.map_append, List.flatten_cons,
        List.flatten_append, List.map_nil, List.flatten_nil, List.append_nil, hsp,
        c_str_type_to_str, flat_sep_pieces_last n i (by simpa using hn), List.intercalate,
        List.intersperse_single]
      simp
    | cons g rest =>
      have hrec := ih (i + 1) (by simp at hn ⊢; omega)
      simp only [List.map_cons] at hrec
      rw [header_pieces]
      simp only [List.map_cons, List.map_append, List.flatten_cons, List.flatten_append,
        hsp, c_str_type_to_str, flat_sep_pieces_inner n i (by simp at hn; omega), hrec]
      simp [List.intercalate]

theorem flat_row_written (n : Int) (row : MYSQL_ROW) (i : Int) (hn : i + row.length = n) :
    ((row_pieces n i row).map c_str).flatten =
      List.intercalate (c_lit "~") (row.map written_value) := by
  induction row generalizing i with
  | nil => simp [row_pieces, List.intercalate]
  | cons v rest ih =>
    have hv := c_str_value_written v
    cases rest with
    | nil =>
      simp only [row_pieces, List.map_cons, List.map_append, List.flatten_cons,
        List.flatten_append, List.map_nil, List.flatten_nil, List.append_nil, hv,
        flat_sep_pieces_last n i (by simpa using hn), List.intercalate,
        List.intersperse_single]
    | cons w rest =>
      have hrec := ih (i + 1) (by simp at hn ⊢; omega)
      simp only [List.map_cons] at hrec
      rw [row_pieces]
      simp only [List.map_cons, List.map_append, List.flatten_cons, List.flatten_append, hv,
        flat_sep_pieces_inner n i (by simp at hn; omega), hrec]
      simp [List.intercalate]

theorem flat_rows_written (n : Int) (rows : List MYSQL_ROW)
    (hw : ∀ row ∈ rows, (row.length : Int) = n) :
    ((rows_pieces n rows).map c_str).flatten = (rows.map written_row).flatten := by
  induction rows with
  | nil => simp [rows_pieces]
  | cons row rest ih =>
    have hterm : c_str (c_lit "¨") = c_lit "¨" := by decide
    simp only [rows_pieces, List.map_append, List.map_cons, List.flatten_append,
      List.flatten_cons, hterm,
      flat_row_written n row 0 (by simpa using hw row (List.mem_cons_self _ _)),
      ih (fun r hr => hw r (List.mem_cons_of_mem _ hr)), written_row, List.append_assoc]

/-- The bytes of the pieces the encoder appends, one after the other, are the blob
`written_blob`, for every result set. -/
theorem flat_encode_written (res : MYSQL_RES) :
    ((encode_pieces res).map c_str).flatten = written_blob res := by
  have hterm : c_str (c_lit "¨") = c_lit "¨" := by decide
  have hend : c_str (c_lit "\x00") = [] := by decide
  simp only [encode_pieces, List.map_append, List.map_cons, List.flatten_append,
    List.flatten_cons, List.map_nil, List.flatten_nil, hterm, hend, List.append_nil,
    flat_header_written (mysql_num_fields res) res.fields 0 (by simp [mysql_num_fields]),
    flat_rows_written (mysql_num_fields res) res.rows
      (fun row hr => by simp [mysql_num_fields, res.row_width row hr]),
    written_blob, written_header, List.append_assoc]

/-- C13: a SQL NULL is written as the four bytes `NULL`, and `lean_mysql_query` reads the
rows only through the text of their values: two result sets with the same columns whose rows
agree once every NULL is read as the text `NULL` (some, all or none of the NULLs replaced, in
either direction) give the same returned object for every session and capacity, and the same
session record up to the stored pointer to the result set, so the same buffer bytes, cursor
and `has_result`.  When the query succeeds, the bytes it has written at offsets 0..cursor
are, for both result sets, the blob `written_blob` of the first: the header line and the
rows, in which every entry stands with the bytes of its C string and every NULL entry with
exactly the four bytes 78, 85, 76, 76 (`NULL`), the same bytes the text `NULL` stands with. -/
theorem null_collision (m : mysql) (status : Int) (error : List Nat) (res res' : MYSQL_RES)
    (hf : res.fields = res'.fields)
    (hr : res.rows.map (List.map value_text) = res'.rows.map (List.map value_text)) :
    (lean_mysql_query m status error res).2 = (lean_mysql_query m status error res').2 ∧
      without_result (lean_mysql_query m status error res).1 =
        without_result (lean_mysql_query m status error res').1 ∧
      (lean_mysql_query m status error res).1.buffer =
        (lean_mysql_query m status error res').1.buffer ∧
      (lean_mysql_query m status error res).1.buffer_pos =
        (lean_mysql_query m status error res').1.buffer_pos ∧
      (lean_mysql_query m status error res).1.has_result =
        (lean_mysql_query m status error res').1.has_result ∧
      value_text none = value_text (some (c_lit "NULL")) ∧
      (value_text none).length = 4 ∧
      written_blob res = written_blob res' ∧
      ((lean_mysql_query m status error res).2 = lean_io_result_mk_ok (lean_box 0) →
        (lean_mysql_query m status error res).1.buffer.take
            (lean_mysql_query m status error res).1.buffer_pos.toNat = written_blob res ∧
          (lean_mysql_query m status error res').1.buffer.take
            (lean_mysql_query m status error res').1.buffer_pos.toNat = written_blob res) ∧
      written_value none = [78, 85, 76, 76] ∧
      written_value (some (c_lit "NULL")) = [78, 85, 76, 76] := by
  have hp := encode_pieces_congr res res' hf hr
  have q := query_without_result m status error res
  have q' := query_without_result m status error res'
  rw [hp] at q
  have hw : without_result (lean_mysql_query m status error res).1 =
      without_result (lean_mysql_query m status error res').1 := q.1.trans q'.1.symm
  have hout : (lean_mysql_query m status error res).2 =
      (lean_mysql_query m status error res').2 := q.2.trans q'.2.symm
  have hblob : written_blob res = written_blob res' := by
    rw [← flat_encode_written res, ← flat_encode_written res', hp]
  refine ⟨hout, hw, ?_, ?_, ?_, by decide, by decide, hblob, ?_, by decide, by decide⟩
  · have h := congrArg (fun s : mysql => s.buffer) hw
    simpa only [without_result] using h
  · have h := congrArg (fun s : mysql => s.buffer_pos) hw
    simpa only [without_result] using h
  · have h := congrArg (fun s : mysql => s.has_result) hw
    simpa only [without_result] using h
  · intro hok
    have hok' : (lean_mysql_query m status error res').2 =
        lean_io_result_mk_ok (lean_box 0) := hout ▸ hok
    have t := terminated_take (query_ok_terminated hok)
    have t' := terminated_take (query_ok_terminated hok')
    rw [flat_encode_written] at t t'
    exact ⟨t, by rw [t', hblob]⟩

/-- C13 at the first example of the specification: with the NULL of the second row replaced
by the text `NULL` the query returns the same object and leaves the same buffer and
cursor, and the bytes written are for both the blob of the example, with the four bytes
`NULL` where the SQL NULL stands. -/
theorem null_collision_witness :
    (lean_mysql_query session_64 0 [] ann_bo).2 =
        (lean_mysql_query session_64 0 [] ann_bo_text).2 ∧
      (lean_mysql_query session_64 0 [] ann_bo).1.buffer =
        (lean_mysql_query session_64 0 [] ann_bo_text).1.buffer ∧
      (lean_mysql_query session_64 0 [] ann_bo).1.buffer_pos =
        (lean_mysql_query session_64 0 [] ann_bo_text).1.buffer_pos ∧
      written_blob ann_bo = c_lit "id nat~name string¨1~Ann¨NULL~Bo¨" ∧
      (lean_mysql_query session_64 0 [] ann_bo).1.buffer.take
          (lean_mysql_query session_64 0 [] ann_bo).1.buffer_pos.toNat =
        written_blob ann_bo ∧
      (lean_mysql_query session_64 0 [] ann_bo_text).1.buffer.take
          (lean_mysql_query session_64 0 [] ann_bo_text).1.buffer_pos.toNat =
        written_blob ann_bo :=
  ⟨(null_collision session_64 0 [] ann_bo ann_bo_text (by decide) (by decide)).1,
    (null_collision session_64 0 [] ann_bo ann_bo_text (by decide) (by decide)).2.2.1,
    (null_collision session_64 0 [] ann_bo ann_bo_text (by decide) (by decide)).2.2.2.1,
    by decide,
    ((null_collision session_64 0 [] ann_bo ann_bo_text (by decide)
      (by decide)).2.2.2.2.2.2.2.2.1 (by decide)).1,
    ((null_collision session_64 0 [] ann_bo ann_bo_text (by decide)
      (by decide)).2.2.2.2.2.2.2.2.1 (by decide)).2⟩

theorem append_to_buffer_bounds (m : mysql) (s : List Nat) :
    (append_to_buffer m s).1.buffer_size = m.buffer_size ∧
      (0 ≤ m.buffer_pos → 0 ≤ (append_to_buffer m s).1.buffer_pos) ∧
      (m.buffer_pos ≤ m.buffer_size →
        (append_to_buffer m s).1.buffer_pos ≤ m.buffer_size) := by
  cases h : (append_to_buffer m s).2
  · rw [append_to_buffer_fail m s h]
    exact ⟨rfl, id, id⟩
  · have hp := append_to_buffer_pos m s h
    have hfit := (append_to_buffer_ok_iff m s).mp h
    rw [hp.1, hp.2]
    refine ⟨rfl, ?_, ?_⟩ <;> intro _ <;> omega

theorem append_all_bounds (ps : List (List Nat)) (m : mysql) :
    (append_all ps m).1.buffer_size = m.buffer_size ∧
      (0 ≤ m.buffer_pos → 0 ≤ (append_all ps m).1.buffer_pos) ∧
      (m.buffer_pos ≤ m.buffer_size → (append_all ps m).1.buffer_pos ≤ m.buffer_size) := by
  induction ps generalizing m with
  | nil => exact ⟨rfl, id, id⟩
  | cons s ps ih =>
    have hb := append_to_buffer_bounds m s
    rw [append_all]
    cases h : (append_to_buffer m s).2
    · rw [and_then_of_fail _ h]
      exact hb
    · rw [and_then_of_ok _ h]
      have hi := ih (append_to_buffer m s).1
      rw [hb.1] at hi
      exact ⟨hi.1, fun h0 => hi.2.1 (hb.2.1 h0), fun h1 => hi.2.2 (hb.2.2 h1)⟩

/-- The cursor and the capacity after `lean_mysql_query`: the capacity is never written; the
cursor is either untouched (no encoding started) or the encoder's, which starts at 0. -/
theorem query_bounds (m : mysql) (status : Int) (error : List Nat) (res : MYSQL_RES) :
    (lean_mysql_query m status error res).1.buffer_size = m.buffer_size ∧
      (0 ≤ m.buffer_pos → 0 ≤ (lean_mysql_query m status error res).1.buffer_pos) ∧
      (0 ≤ m.buffer_pos → m.buffer_pos ≤ m.buffer_size →
        (lean_mysql_query m status error res).1.buffer_pos ≤ m.buffer_size) ∧
      (m.logged = true → status = 0 → 0 ≤ m.buffer_size →
        0 ≤ (lean_mysql_query m status error res).1.buffer_pos ∧
        (lean_mysql_query m status error res).1.buffer_pos ≤ m.buffer_size) := by
  have hb := append_all_bounds (encode_pieces res) (reset_buffer (query_all m status (some res)))
  rw [← encode_result_eq] at hb
  have hcap : (reset_buffer (query_all m status (some res))).buffer_size = m.buffer_size := rfl
  have hpos : (reset_buffer (query_all m status (some res))).buffer_pos = 0 := rfl
  rw [hcap, hpos] at hb
  rw [query_unfold]
  cases hl : m.logged
  · rw [if_pos rfl]
    exact ⟨rfl, id, fun _ h => h, fun h => absurd h (by simp)⟩
  · rw [if_neg (by simp)]
    by_cases hs : status = 0
    · rw [if_neg (by simp [hs])]
      have hfin : ∀ x : mysql, x.buffer_size = m.buffer_size → 0 ≤ x.buffer_pos →
          (m.buffer_size ≥ 0 → x.buffer_pos ≤ m.buffer_size) →
          x.buffer_size = m.buffer_size ∧
            (0 ≤ m.buffer_pos → 0 ≤ x.buffer_pos) ∧
            (0 ≤ m.buffer_pos → m.buffer_pos ≤ m.buffer_size →
              x.buffer_pos ≤ m.buffer_size) ∧
            (true = true → status = 0 → 0 ≤ m.buffer_size →
              0 ≤ x.buffer_pos ∧ x.buffer_pos ≤ m.buffer_size) :=
        fun x h1 h2 h3 => ⟨h1, fun _ => h2, fun h0 hle => h3 (le_trans h0 hle),
          fun _ _ hc => ⟨h2, h3 hc⟩⟩
      cases he : (encode_result res (reset_buffer (query_all m status (some res)))).2
      · rw [if_pos rfl]
        exact hfin _ hb.1 (hb.2.1 (le_refl 0)) hb.2.2
      · rw [if_neg (by simp)]
        exact hfin _ hb.1 (hb.2.1 (le_refl 0)) hb.2.2
    · rw [if_pos hs]
      exact ⟨rfl, id, fun _ h => h, fun _ h => absurd h hs⟩

theorem login_bounds (m : mysql) (init_ok connect_ok : Bool) (error : List Nat) :
    (lean_mysql_login m init_ok connect_ok error).1.buffer_size = m.buffer_size ∧
      (lean_mysql_login m init_ok connect_ok error).1.buffer_pos = m.buffer_pos := by
  unfold lean_mysql_login
  cases m.logged <;> cases init_ok <;> cases connect_ok <;> exact ⟨rfl, rfl⟩

theorem run_bounds (m : mysql) (status : Int) (error : List Nat) (result : Option MYSQL_RES) :
    (lean_mysql_run m status error result).1.buffer_size = m.buffer_size ∧
      (lean_mysql_run m status error result).1.buffer_pos = m.buffer_pos := by
  rw [run_unfold]
  cases m.logged
  · exact ⟨rfl, rfl⟩
  · by_cases hs : status = 0
    · simp only [hs, Bool.true_eq_false, if_false, ne_eq, not_true_eq_false]
      exact ⟨rfl, rfl⟩
    · simp only [Bool.true_eq_false, if_false, ne_eq, hs, not_false_eq_true, if_true]
      exact ⟨rfl, rfl⟩

theorem resize_cursor_of_eq (m : mysql) (b : Nat) (block : List Nat) (n : Int)
    (h : lean_mysql_set_buffer_size m b (some block) =
      ({ m with buffer := block, buffer_size := n }, lean_io_result_mk_ok (lean_box 0))) :
    (lean_mysql_set_buffer_size m b (some block)).1.buffer_pos = m.buffer_pos := by
  rw [h]

theorem resize_cursor (m : mysql) (b : Nat) (fresh : Option (List Nat)) :
    (lean_mysql_set_buffer_size m b fresh).1.buffer_pos = m.buffer_pos := by
  cases fresh with
  | none => rfl
  | some block =>
    exact resize_cursor_of_eq m b block (buffer_units_to_size b)
      (set_buffer_size_some m b block)

theorem api_step_bounds (m : mysql) (c : api_call) :
    (0 ≤ m.buffer_pos → 0 ≤ (api_step m c).buffer_pos) ∧
      (is_resize c = false →
        (api_step m c).buffer_size = m.buffer_size ∧
        (0 ≤ m.buffer_pos → m.buffer_pos ≤ m.buffer_size →
          (api_step m c).buffer_pos ≤ m.buffer_size)) := by
  cases c with
  | login init_ok connect_ok error =>
    have h := login_bounds m init_ok connect_ok error
    simp only [api_step]
    rw [h.1, h.2]
    exact ⟨id, fun _ => ⟨rfl, fun _ h1 => h1⟩⟩
  | execute status error result =>
    have h := run_bounds m status error result
    simp only [api_step]
    rw [h.1, h.2]
    exact ⟨id, fun _ => ⟨rfl, fun _ h1 => h1⟩⟩
  | query status error res =>
    have h := query_bounds m status error res
    simp only [api_step]
    exact ⟨h.2.1, fun _ => ⟨h.1, h.2.2.1⟩⟩
  | fetch =>
    have h : (lean_mysql_get_query_result m).1 = m := by
      unfold lean_mysql_get_query_result
      cases m.has_result <;> rfl
    simp only [api_step]
    rw [h]
    exact ⟨id, fun _ => ⟨rfl, fun _ h1 => h1⟩⟩
  | resize b fresh =>
    simp only [api_step, resize_cursor]
    exact ⟨id, fun h => absurd h (by simp [is_resize])⟩
  | close =>
    have h : (api_step m api_call.close).buffer_pos = m.buffer_pos ∧
        (api_step m api_call.close).buffer_size = m.buffer_size := by
      simp only [api_step]
      cases hc : lean_mysql_close m with
      | none => exact ⟨rfl, rfl⟩
      | some r =>
        obtain ⟨m', o⟩ := r
        have hm := close_connection_some (lean_mysql_close_some hc).1
        subst hm
        exact ⟨rfl, rfl⟩
    rw [h.1, h.2]
    exact ⟨id, fun _ => ⟨rfl, fun _ h1 => h1⟩⟩

theorem api_run_cons (m : mysql) (c : api_call) (calls : List api_call) :
    api_run m (c :: calls) = api_run (api_step m c) calls := rfl

theorem api_run_nonneg (calls : List api_call) (m : mysql) (h : 0 ≤ m.buffer_pos) :
    0 ≤ (api_run m calls).buffer_pos := by
  induction calls generalizing m with
  | nil => exact h
  | cons c calls ih =>
    rw [api_run_cons]
    exact ih _ ((api_step_bounds m c).1 h)

theorem api_run_bounds (calls : List api_call) (m : mysql)
    (hr : ∀ c ∈ calls, is_resize c = false)
    (h0 : 0 ≤ m.buffer_pos) (h1 : m.buffer_pos ≤ m.buffer_size) :
    (api_run m calls).buffer_size = m.buffer_size ∧
      (api_run m calls).buffer_pos ≤ m.buffer_size := by
  induction calls generalizing m with
  | nil => exact ⟨rfl, h1⟩
  | cons c calls ih =>
    rw [api_run_cons]
    have hc := (api_step_bounds m c).2 (hr c (List.mem_cons_self _ _))
    have hn := (api_step_bounds m c).1 h0
    have hi := ih (api_step m c) (fun d hd => hr d (List.mem_cons_of_mem _ hd)) hn
      (by rw [hc.1]; exact hc.2 h0 h1)
    rw [hc.1] at hi
    exact hi

set_option maxRecDepth 100000 in
/-- C14, counterexample: a session built by `lean_mysql_mk 3` in a record holding the
declared initial values (capacity 2048, cursor 0) logs in and runs a query whose blob has
1109 bytes; the resize to 2 units then succeeds, sets the capacity to 1024 and leaves the
cursor at 1109: the cursor is not 0 after the resize and lies above the capacity. -/
theorem cursor_above_capacity_after_resize :
    lean_mysql_mk 3 mysql_default (some (List.replicate 2048 0)) =
        lean_io_result_mk_ok (mysql_box fresh_session) ∧
      fresh_session.buffer_pos = 0 ∧ fresh_session.buffer_size = 2048 ∧
      (lean_mysql_set_buffer_size
        (api_run fresh_session [api_call.login true true [], api_call.query 0 [] wide_res])
        2 (some fresh_block)).2 = lean_io_result_mk_ok (lean_box 0) ∧
      (api_run fresh_session
        [api_call.login true true [], api_call.query 0 [] wide_res,
          api_call.resize 2 (some fresh_block)]).buffer_size = 1024 ∧
      (api_run fresh_session
        [api_call.login true true [], api_call.query 0 [] wide_res,
          api_call.resize 2 (some fresh_block)]).buffer_pos = 1109 := by
  refine ⟨rfl, by decide, by decide, by decide, by decide, by decide⟩

/-- C14 as amended: from a session state with `0 ≤ cursor ≤ capacity`, every sequence of
login, execute, query, fetch and close calls keeps the capacity and keeps
`0 ≤ cursor ≤ capacity`; with resize calls in the sequence `0 ≤ cursor` still holds; a
successful resize writes the buffer and the capacity and leaves the cursor where it was; and
a query in a logged-in session of non-negative capacity whose statement went through ends
with `0 ≤ cursor ≤ capacity` whatever the cursor was before. -/
theorem cursor_bounds (m₀ : mysql) (h0 : 0 ≤ m₀.buffer_pos)
    (h1 : m₀.buffer_pos ≤ m₀.buffer_size) :
    (∀ calls : List api_call, (∀ c ∈ calls, is_resize c = false) →
      (api_run m₀ calls).buffer_size = m₀.buffer_size ∧
      0 ≤ (api_run m₀ calls).buffer_pos ∧
      (api_run m₀ calls).buffer_pos ≤ (api_run m₀ calls).buffer_size) ∧
    (∀ calls : List api_call, 0 ≤ (api_run m₀ calls).buffer_pos) ∧
    (∀ (m : mysql) (b : Nat) (block : List Nat),
      lean_mysql_set_buffer_size m b (some block) =
        ({ m with buffer := block, buffer_size := buffer_units_to_size b },
          lean_io_result_mk_ok (lean_box 0))) ∧
    (∀ (m : mysql) (b : Nat) (fresh : Option (List Nat)),
      (lean_mysql_set_buffer_size m b fresh).1.buffer_pos = m.buffer_pos) ∧
    (∀ (m : mysql) (error : List Nat) (res : MYSQL_RES),
      m.logged = true → 0 ≤ m.buffer_size →
        (lean_mysql_query m 0 error res).1.buffer_size = m.buffer_size ∧
        0 ≤ (lean_mysql_query m 0 error res).1.buffer_pos ∧
        (lean_mysql_query m 0 error res).1.buffer_pos ≤ m.buffer_size) := by
  refine ⟨?_, fun calls => api_run_nonneg calls m₀ h0, fun m b block => rfl,
    resize_cursor, ?_⟩
  · intro calls hr
    have hb := api_run_bounds calls m₀ hr h0 h1
    refine ⟨hb.1, api_run_nonneg calls m₀ h0, ?_⟩
    rw [hb.1]
    exact hb.2
  · intro m error res hlog hcap
    have hq := query_bounds m 0 error res
    exact ⟨hq.1, (hq.2.2.2 hlog rfl hcap).1, (hq.2.2.2 hlog rfl hcap).2⟩

set_option maxRecDepth 100000 in
/-- C14 as amended, at the fresh session: after login, a query, a fetch, a failed statement
and a close the capacity is still 2048 and the cursor lies between 0 and 2048; and the query
that follows the shrinking resize of the counterexample brings the cursor back under the
capacity 1024. -/
theorem cursor_bounds_witness :
    ((api_run fresh_session
        [api_call.login true true [], api_call.query 0 [] ann_bo, api_call.fetch,
          api_call.execute 1 (c_lit "Unknown column") none, api_call.close]).buffer_size
            = 2048 ∧
      0 ≤ (api_run fresh_session
        [api_call.login true true [], api_call.query 0 [] ann_bo, api_call.fetch,
          api_call.execute 1 (c_lit "Unknown column") none, api_call.close]).buffer_pos ∧
      (api_run fresh_session
        [api_call.login true true [], api_call.query 0 [] ann_bo, api_call.fetch,
          api_call.execute 1 (c_lit "Unknown column") none, api_call.close]).buffer_pos
            ≤ 2048) ∧
    (lean_mysql_query
        (api_run fresh_session
          [api_call.login true true [], api_call.query 0 [] wide_res,
            api_call.resize 2 (some fresh_block)]) 0 [] ann_bo).1.buffer_pos ≤ 1024 :=
  ⟨⟨((cursor_bounds fresh_session (by decide) (by decide)).1
        [api_call.login true true [], api_call.query 0 [] ann_bo, api_call.fetch,
          api_call.execute 1 (c_lit "Unknown column") none, api_call.close]
        (by decide)).1.trans (by decide),
      ((cursor_bounds fresh_session (by decide) (by decide)).1
        [api_call.login true true [], api_call.query 0 [] ann_bo, api_call.fetch,
          api_call.execute 1 (c_lit "Unknown column") none, api_call.close]
        (by decide)).2.1,
      (((cursor_bounds fresh_session (by decide) (by decide)).1
        [api_call.login true true [], api_call.query 0 [] ann_bo, api_call.fetch,
          api_call.execute 1 (c_lit "Unknown column") none, api_call.close]
        (by decide)).2.2).trans (by decide)⟩,
    (((cursor_bounds fresh_session (by decide) (by decide)).2.2.2.2
        (api_run fresh_session
          [api_call.login true true [], api_call.query 0 [] wide_res,
            api_call.resize 2 (some fresh_block)]) [] ann_bo
        (by decide) (by decide)).2.2).trans (by decide)⟩

theorem buffer_units_to_size_eq (b : Nat) :
    buffer_units_to_size b =
      if (((b % 2 ^ 32 : Nat) : Int) - 1) * 1024 % 2 ^ 32 < 2 ^ 31 then
        (((b % 2 ^ 32 : Nat) : Int) - 1) * 1024 % 2 ^ 32
      else (((b % 2 ^ 32 : Nat) : Int) - 1) * 1024 % 2 ^ 32 - 2 ^ 32 := by
  unfold buffer_units_to_size
  simp only []
  split <;> split <;> omega

theorem lean_mysql_mk_some (b : Nat) (raw : mysql) (block : List Nat) :
    lean_mysql_mk b raw (some block) =
      lean_io_result_mk_ok
        (mysql_box { raw with buffer := block, buffer_size := buffer_units_to_size b }) :=
  rfl

/-- C19: when the allocation of the buffer succeeds, `lean_mysql_mk` and
`lean_mysql_set_buffer_size` called with the `uint32_t` value `b` install the capacity
`buffer_units_to_size b` (and touch no other field but `buffer`); that capacity is
`(b - 1) * 1024` taken modulo `2 ^ 32` and read as a signed 32-bit integer; for
`1 ≤ b ≤ 2 ^ 21` it is exactly `(b - 1) * 1024` and not negative; and for `b = 0` it is
`-1024`. -/
theorem capacity_from_units (b : Nat) (hb : b < 2 ^ 32) :
    (∀ (raw : mysql) (block : List Nat),
      lean_mysql_mk b raw (some block) =
        lean_io_result_mk_ok
          (mysql_box { raw with buffer := block, buffer_size := buffer_units_to_size b })) ∧
    (∀ (m : mysql) (block : List Nat),
      lean_mysql_set_buffer_size m b (some block) =
        ({ m with buffer := block, buffer_size := buffer_units_to_size b },
          lean_io_result_mk_ok (lean_box 0))) ∧
    buffer_units_to_size b =
      (if ((b : Int) - 1) * 1024 % 2 ^ 32 < 2 ^ 31 then ((b : Int) - 1) * 1024 % 2 ^ 32
        else ((b : Int) - 1) * 1024 % 2 ^ 32 - 2 ^ 32) ∧
    (1 ≤ b → b ≤ 2 ^ 21 →
      buffer_units_to_size b = ((b : Int) - 1) * 1024 ∧ 0 ≤ buffer_units_to_size b) ∧
    buffer_units_to_size 0 = -1024 := by
  have hmod : b % 2 ^ 32 = b := Nat.mod_eq_of_lt hb
  have hform := buffer_units_to_size_eq b
  rw [hmod] at hform
  refine ⟨fun raw block => rfl, fun m block => rfl, hform, ?_, by decide⟩
  intro h1 h2
  rw [hform]
  have h2' : b ≤ 2097152 := by simpa using h2
  split <;> omega

/-- C19 at `b = 2` (1024 bytes), at the largest size of the stated range, `b = 2 ^ 21`, and
at `b = 0`. -/
theorem capacity_from_units_witness :
    buffer_units_to_size 2 = 1024 ∧ buffer_units_to_size (2 ^ 21) = 2147482624 ∧
      0 ≤ buffer_units_to_size (2 ^ 21) ∧ buffer_units_to_size 0 = -1024 :=
  ⟨((capacity_from_units 2 (by decide)).2.2.2.1 (by decide) (by decide)).1.trans (by decide),
    ((capacity_from_units (2 ^ 21) (by decide)).2.2.2.1 (by decide) (by decide)).1.trans
      (by decide),
    ((capacity_from_units (2 ^ 21) (by decide)).2.2.2.1 (by decide) (by decide)).2,
    (capacity_from_units 0 (by decide)).2.2.2.2⟩

theorem c_lit_term : c_lit "¨" = [194, 168] := by decide

theorem c_lit_sep : c_lit "~" = [126] := by decide

theorem has_term_occurs (s : List Nat) (h : has_term s = true) : [194, 168] <:+: s := by
  induction s with
  | nil => simp [has_term] at h
  | cons a s ih =>
    cases s with
    | nil => simp [has_term] at h
    | cons b rest =>
      simp only [has_term, Bool.or_eq_true, Bool.and_eq_true, beq_iff_eq] at h
      rcases h with ⟨rfl, rfl⟩ | h
      · exact ⟨[], rest, rfl⟩
      · obtain ⟨u, w, huw⟩ := ih h
        exact ⟨a :: u, w, by simp [← huw]⟩

theorem has_term_false_of_absent {s : List Nat} (h : ¬ (c_lit "¨" <:+: s)) :
    has_term s = false := by
  rw [c_lit_term] at h
  cases hs : has_term s
  · rfl
  · exact absurd (has_term_occurs s hs) h

theorem sep_not_mem_of_absent {s : List Nat} (h : ¬ (c_lit "~" <:+: s)) : 126 ∉ s := by
  rw [c_lit_sep] at h
  intro hm
  obtain ⟨u, w, rfl⟩ := List.append_of_mem hm
  exact h ⟨u, w, by simp⟩

theorem has_term_tail {a : Nat} {s : List Nat} (h : has_term (a :: s) = false) :
    has_term s = false := by
  cases s with
  | nil => rfl
  | cons b rest =>
    simp only [has_term, Bool.or_eq_false_iff] at h
    exact h.2

theorem has_term_cons {c : Nat} (y : List Nat) (hc : c ≠ 194) (hy : has_term y = false) :
    has_term (c :: y) = false := by
  cases y with
  | nil => rfl
  | cons b rest =>
    simp only [has_term, Bool.or_eq_false_iff, Bool.and_eq_false_imp, beq_iff_eq]
    exact ⟨fun h => absurd h hc, hy⟩

theorem has_term_append_sep (x y : List Nat) (c : Nat) (hx : has_term x = false)
    (hy : has_term y = false) (h1 : c ≠ 194) (h2 : c ≠ 168) :
    has_term (x ++ c :: y) = false := by
  induction x with
  | nil => exact has_term_cons y h1 hy
  | cons a x ih =>
    have hrec := ih (has_term_tail hx)
    cases x with
    | nil =>
      simp only [List.cons_append, List.nil_append, has_term, Bool.or_eq_false_iff,
        Bool.and_eq_false_imp, beq_iff_eq]
      exact ⟨fun _ => by simpa using h2, hrec⟩
    | cons b x' =>
      simp only [List.cons_append, has_term, Bool.or_eq_false_iff] at hx hrec ⊢
      exact ⟨hx.1, hrec⟩

theorem intercalate_singleton (sep x : List Nat) : List.intercalate sep [x] = x := by
  simp [List.intercalate]

theorem intercalate_cons_cons (sep x y : List Nat) (l : List (List Nat)) :
    List.intercalate sep (x :: y :: l) = x ++ sep ++ List.intercalate sep (y :: l) := by
  simp [List.intercalate]

theorem has_term_intercalate (l : List (List Nat)) (h : ∀ e ∈ l, has_term e = false) :
    has_term (List.intercalate [126] l) = false := by
  induction l with
  | nil => rfl
  | cons x l ih =>
    cases l with
    | nil =>
      rw [intercalate_singleton]
      exact h x (List.mem_cons_self _ _)
    | cons y l' =>
      rw [intercalate_cons_cons, List.append_assoc, List.singleton_append]
      exact has_term_append_sep _ _ 126 (h x (List.mem_cons_self _ _))
        (ih (fun e he => h e (List.mem_cons_of_mem _ he))) (by decide) (by decide)

theorem split_go_skip (sep : List Nat) (b : Nat) (rest : List Nat) (skip : Nat) :
    split_go sep (skip + 1) (b :: rest) = split_go sep skip rest := by
  rw [split_go]

theorem split_go_nil (sep : List Nat) (skip : Nat) : split_go sep skip [] = [[]] := by
  cases skip <;> rw [split_go]

theorem split_go_hit (sep : List Nat) (b : Nat) (rest : List Nat)
    (h : sep.isPrefixOf (b :: rest) = true) :
    split_go sep 0 (b :: rest) = [] :: split_go sep (sep.length - 1) rest := by
  rw [split_go, if_pos h]

theorem split_go_miss (sep : List Nat) (b : Nat) (rest p : List Nat) (ps : List (List Nat))
    (h : sep.isPrefixOf (b :: rest) = false) (hrec : split_go sep 0 rest = p :: ps) :
    split_go sep 0 (b :: rest) = (b :: p) :: ps := by
  rw [split_go, if_neg (by simp [h]), hrec]

/-- A piece without the record terminator, followed by the terminator: the split returns the
piece and goes on behind the terminator. -/
theorem split_on_term (p rest : List Nat) (hp : has_term p = false) :
    split_on [194, 168] (p ++ [194, 168] ++ rest) = p :: split_on [194, 168] rest := by
  unfold split_on
  induction p with
  | nil =>
    rw [List.nil_append, List.cons_append, List.cons_append, List.nil_append,
      split_go_hit _ _ _ (by simp [List.isPrefixOf])]
    exact congrArg _ (split_go_skip _ _ _ _)
  | cons a p ih =>
    have hrec := ih (has_term_tail hp)
    refine split_go_miss _ a _ p _ ?_ hrec
    cases p with
    | nil =>
      simp [List.isPrefixOf]
    | cons b p' =>
      simp only [has_term, Bool.or_eq_false_iff, Bool.and_eq_false_imp, beq_iff_eq] at hp
      simp only [List.cons_append, List.isPrefixOf, Bool.and_eq_false_imp, beq_iff_eq,
        Bool.and_true]
      intro h1
      have := hp.1 h1.symm
      simp only [beq_eq_false_iff_ne, ne_eq] at this ⊢
      exact fun h => this h.symm

theorem split_on_pieces (pieces : List (List Nat)) (h : ∀ p ∈ pieces, has_term p = false) :
    split_on [194, 168] ((pieces.map fun p => p ++ [194, 168]).flatten) = pieces ++ [[]] := by
  induction pieces with
  | nil => rfl
  | cons p pieces ih =>
    rw [List.map_cons, List.flatten_cons, split_on_term p _ (h p (List.mem_cons_self _ _)),
      ih (fun q hq => h q (List.mem_cons_of_mem _ hq))]
    rfl

theorem split_on_sep_last (v : List Nat) (hv : 126 ∉ v) : split_on [126] v = [v] := by
  unfold split_on
  induction v with
  | nil => rfl
  | cons a v ih =>
    have ha : a ≠ 126 := fun h => hv (by simp [h])
    exact split_go_miss _ a v v [] (by simp [List.isPrefixOf, Ne.symm ha])
      (ih (fun h => hv (List.mem_cons_of_mem _ h)))

theorem split_on_sep (v rest : List Nat) (hv : 126 ∉ v) :
    split_on [126] (v ++ 126 :: rest) = v :: split_on [126] rest := by
  unfold split_on
  induction v with
  | nil =>
    rw [List.nil_append, split_go_hit _ _ _ (by simp [List.isPrefixOf])]
    rfl
  | cons a v ih =>
    have ha : a ≠ 126 := fun h => hv (by simp [h])
    exact split_go_miss _ a _ v _ (by simp [List.isPrefixOf, Ne.symm ha])
      (ih (fun h => hv (List.mem_cons_of_mem _ h)))

theorem split_on_intercalate (x : List Nat) (l : List (List Nat))
    (h : ∀ v ∈ x :: l, 126 ∉ v) :
    split_on [126] (List.intercalate [126] (x :: l)) = x :: l := by
  induction l generalizing x with
  | nil =>
    rw [intercalate_singleton]
    exact split_on_sep_last x (h x (List.mem_cons_self _ _))
  | cons y l ih =>
    rw [intercalate_cons_cons, List.append_assoc, List.singleton_append,
      split_on_sep x _ (h x (List.mem_cons_self _ _)),
      ih y (fun v hv => h v (List.mem_cons_of_mem _ hv))]

theorem value_text_eq (v : Option (List Nat)) : v.getD (c_lit "NULL") = value_text v := by
  cases v <;> rfl

theorem spec_row_eq :
    spec_row = fun row => List.intercalate [126] (row.map value_text) ++ [194, 168] := by
  funext row
  have hv : (fun v : Option (List Nat) => v.getD (c_lit "NULL")) = value_text :=
    funext value_text_eq
  rw [spec_row, c_lit_term, c_lit_sep, hv]

theorem spec_blob_pieces (res : MYSQL_RES) :
    spec_blob res =
      ((List.intercalate [126]
          (res.fields.map fun f => f.name ++ c_lit " " ++ type_to_str f.type) ::
        res.rows.map fun row => List.intercalate [126] (row.map value_text)).map
          fun p => p ++ [194, 168]).flatten := by
  rw [spec_blob, spec_header, spec_row_eq, c_lit_term, c_lit_sep, List.map_cons,
    List.flatten_cons, List.map_map]
  rfl

theorem has_term_type_to_str (t : Int) : has_term (type_to_str t) = false := by
  rcases type_to_str_cases t with h | h | h <;> rw [h] <;> decide

theorem has_term_value_text (v : Option (List Nat))
    (h : ∀ s ∈ v, ¬ (c_lit "¨" <:+: s)) : has_term (value_text v) = false := by
  cases v with
  | none => decide
  | some s => exact has_term_false_of_absent (h s rfl)

theorem sep_not_mem_value_text (v : Option (List Nat))
    (h : ∀ s ∈ v, ¬ (c_lit "~" <:+: s)) : 126 ∉ value_text v := by
  cases v with
  | none => decide
  | some s => exact sep_not_mem_of_absent (h s rfl)

/-- The reader applied to the blob of the specification returns the rows, for at least one
column and names and values free of the two delimiters. -/
theorem decode_rows_spec_blob (res : MYSQL_RES) (hcols : res.fields ≠ [])
    (hd : delimiter_free res) :
    decode_rows (spec_blob res) = res.rows.map fun row => row.map value_text := by
  have hH : has_term (List.intercalate [126]
      (res.fields.map fun f => f.name ++ c_lit " " ++ type_to_str f.type)) = false := by
    apply has_term_intercalate
    intro e he
    obtain ⟨f, hf, rfl⟩ := List.mem_map.mp he
    have hsp : c_lit " " = [32] := by decide
    rw [hsp, List.append_assoc, List.singleton_append]
    exact has_term_append_sep _ _ 32 (has_term_false_of_absent (hd.1 f hf).2)
      (has_term_type_to_str _) (by decide) (by decide)
  have hR : ∀ p ∈ res.rows.map (fun row => List.intercalate [126] (row.map value_text)),
      has_term p = false := by
    intro p hp
    obtain ⟨row, hrow, rfl⟩ := List.mem_map.mp hp
    apply has_term_intercalate
    intro e he
    obtain ⟨v, hv, rfl⟩ := List.mem_map.mp he
    exact has_term_value_text v (fun s hs => (hd.2 row hrow v hv s hs).2)
  unfold decode_rows
  rw [spec_blob_pieces, c_lit_term, c_lit_sep, split_on_pieces _ (by
    intro p hp
    rcases List.mem_cons.mp hp with rfl | hp
    · exact hH
    · exact hR p hp)]
  rw [List.cons_append, List.drop_one, List.tail_cons, List.dropLast_concat, List.map_map]
  apply List.map_congr_left
  intro row hrow
  have hlen : row.length = res.fields.length := res.row_width row hrow
  cases row with
  | nil =>
    exact absurd (List.length_eq_zero.mp hlen.symm) hcols
  | cons v l =>
    show split_on [126] (List.intercalate [126] (value_text v :: l.map value_text)) = _
    rw [split_on_intercalate]
    · rfl
    · intro w hw
      rw [← List.map_cons] at hw
      obtain ⟨u, hu, rfl⟩ := List.mem_map.mp hw
      exact sep_not_mem_value_text u (fun s hs => (hd.2 _ hrow u hu s hs).1)

/-- C18, counterexample: the value `a`, zero byte, `b` contains neither delimiter, the query
succeeds, but the copy stops at the zero byte: the blob is `c string¨a¨` and reading it back
gives the single value `a`, not the three bytes of the value. -/
theorem zero_byte_breaks_round_trip :
    nul_value.fields ≠ [] ∧ delimiter_free nul_value ∧
      (lean_mysql_query session_64 0 [] nul_value).2 = lean_io_result_mk_ok (lean_box 0) ∧
      (lean_mysql_query session_64 0 [] nul_value).1.buffer.take
          (lean_mysql_query session_64 0 [] nul_value).1.buffer_pos.toNat =
        c_lit "c string¨a¨" ∧
      decode_rows ((lean_mysql_query session_64 0 [] nul_value).1.buffer.take
          (lean_mysql_query session_64 0 [] nul_value).1.buffer_pos.toNat) = [[[97]]] ∧
      (nul_value.rows.map fun row => row.map value_text) = [[[97, 0, 98]]] ∧
      decode_rows ((lean_mysql_query session_64 0 [] nul_value).1.buffer.take
          (lean_mysql_query session_64 0 [] nul_value).1.buffer_pos.toNat) ≠
        nul_value.rows.map fun row => row.map value_text := by
  decide

/-- C18 as amended: for a result set with at least one column whose names and values hold
no zero byte and contain neither `~` nor `¨` as a substring, splitting the blob of a
successful `lean_mysql_query` at every `¨`, dropping the first piece and the empty piece
behind the last terminator, and splitting each remaining piece at every `~` gives exactly
the rows in order, each with its values in order and NULL read as the text `NULL`. -/
theorem rows_round_trip (m : mysql) (status : Int) (error : List Nat) (res : MYSQL_RES)
    (hcols : res.fields ≠ []) (hz : zero_free res) (hd : delimiter_free res)
    (hok : (lean_mysql_query m status error res).2 = lean_io_result_mk_ok (lean_box 0)) :
    decode_rows ((lean_mysql_query m status error res).1.buffer.take
        (lean_mysql_query m status error res).1.buffer_pos.toNat) =
      res.rows.map fun row => row.map value_text := by
  have ht := query_ok_terminated hok
  rw [flat_encode_pieces res hz] at ht
  rw [terminated_take ht]
  exact decode_rows_spec_blob res hcols hd

/-- C18 as amended, at the first example of the specification: reading the blob back gives
the rows `1, Ann` and `NULL, Bo`. -/
theorem rows_round_trip_witness :
    decode_rows ((lean_mysql_query session_64 0 [] ann_bo).1.buffer.take
        (lean_mysql_query session_64 0 [] ann_bo).1.buffer_pos.toNat) =
      [[c_lit "1", c_lit "Ann"], [c_lit "NULL", c_lit "Bo"]] :=
  (rows_round_trip session_64 0 [] ann_bo (by decide) (by decide) (by decide)
    (by decide)).trans (by decide)

end LeanMySQL
